import Mathlib

/-!
HD44780 16x2 LCD driver (4-bit mode): shallow embedding and verified properties.

The driver of `src/hd44780.c` is embedded as state-passing functions over

* `State.current_config` : the file-static `current_config`, and
* `State.trace` : the list of calls made to the hardware abstraction layer
  (`HAL_GPIO_Init`, `HAL_Delay`, `HAL_GPIO_WritePin`) and to the driver's own
  busy-wait `lcd_delay_us`, oldest first.

Conventions.

* `uint8_t`, `uint16_t`, `uint32_t` and `char` values are natural numbers; where a
  C expression of type `int` is narrowed to `uint8_t` the embedding writes `% 256`.
* A pointer argument that the code compares with `NULL` is an `Option`.
* A C string is the list of bytes stored at the pointer; the byte after the last
  element of the list is the terminating zero.
* `const uint8_t pattern[8]` is its indexing function `i ↦ pattern[i]`.
* The `int` status codes are integers.
-/

namespace HD44780

/-! ## Constants of `hd44780defs.h` and `hd44780.h` -/

def LCD_CMD_CLEAR : Nat := 0x01
def LCD_CMD_HOME : Nat := 0x02
def LCD_CMD_ENTRY_MODE : Nat := 0x04
def LCD_CMD_DISPLAY_CTRL : Nat := 0x08
def LCD_CMD_SHIFT : Nat := 0x10
def LCD_CMD_FUNCTION_SET : Nat := 0x20
def LCD_CMD_CGRAM_ADDR : Nat := 0x40
def LCD_CMD_DDRAM_ADDR : Nat := 0x80

def LCD_DISPLAY_ON : Nat := 0x04
def LCD_CURSOR_ON : Nat := 0x02
def LCD_BLINK_ON : Nat := 0x01
def LCD_TWO_LINE : Nat := 0x08
def LCD_5x10_DOTS : Nat := 0x04

def LCD_ROWS : Nat := 2
def LCD_COLUMNS : Nat := 16
def LCD_ROW_OFFSET_0 : Nat := 0x00
def LCD_ROW_OFFSET_1 : Nat := 0x40

def LCD_SUCCESS : Int := 0
def LCD_ERR_PARAM : Int := -1
def LCD_ERR_BUSY : Int := -2

/-! ## Data model (`hd44780.h`) -/

/-- The HAL pin level, `GPIO_PinState`. -/
inductive GPIO_PinState where
  | GPIO_PIN_RESET
  | GPIO_PIN_SET
  deriving DecidableEq, Repr

/-- One GPIO line: `struct lcd_gpio_config` (the port is the address of its register block). -/
structure lcd_gpio_config where
  port : Nat
  pin : Nat
  deriving DecidableEq, Repr

/-- The bus lines: `struct lcd_pins_config`; `data0 .. data3` are `data[0] .. data[3]`. -/
structure lcd_pins_config where
  rs : lcd_gpio_config
  en : lcd_gpio_config
  data0 : lcd_gpio_config
  data1 : lcd_gpio_config
  data2 : lcd_gpio_config
  data3 : lcd_gpio_config
  deriving DecidableEq, Repr

/-- Array indexing `pins.data[i]` for the indices `0 .. 3` the driver uses. -/
def lcd_pins_config.data (p : lcd_pins_config) : Nat → lcd_gpio_config
  | 0 => p.data0
  | 1 => p.data1
  | 2 => p.data2
  | _ => p.data3

/-- Durations: `struct lcd_timing_config`. -/
structure lcd_timing_config where
  init_delay : Nat
  enable_pulse_us : Nat
  cmd_delay_us : Nat
  clear_delay_us : Nat
  deriving DecidableEq, Repr

/-- Display flags: `struct lcd_display_config`. -/
structure lcd_display_config where
  cursor_on : Bool
  cursor_blink : Bool
  display_on : Bool
  two_lines : Bool
  big_font : Bool
  deriving DecidableEq, Repr

/-- The complete configuration: `struct lcd_config`. -/
structure lcd_config where
  pins : lcd_pins_config
  timing : lcd_timing_config
  display : lcd_display_config
  deriving DecidableEq, Repr

/-- Pin modes of the vendor HAL (`stm32c0xx_hal.h`, outside the repository); the driver
asks for `GPIO_MODE_OUTPUT_PP`. -/
inductive GPIO_Mode where
  | GPIO_MODE_INPUT
  | GPIO_MODE_OUTPUT_PP
  | GPIO_MODE_OUTPUT_OD
  deriving DecidableEq, Repr

/-- Pull settings of the vendor HAL; the driver asks for `GPIO_NOPULL`. -/
inductive GPIO_Pull where
  | GPIO_NOPULL
  | GPIO_PULLUP
  | GPIO_PULLDOWN
  deriving DecidableEq, Repr

/-- Speed settings of the vendor HAL; the driver asks for `GPIO_SPEED_FREQ_LOW`. -/
inductive GPIO_Speed where
  | GPIO_SPEED_FREQ_LOW
  | GPIO_SPEED_FREQ_MEDIUM
  | GPIO_SPEED_FREQ_HIGH
  deriving DecidableEq, Repr

/-- The fields of the HAL's `GPIO_InitTypeDef` that `lcd_init` fills in. -/
structure GPIO_InitTypeDef where
  Pin : Nat
  Mode : GPIO_Mode
  Pull : GPIO_Pull
  Speed : GPIO_Speed
  deriving DecidableEq, Repr

/-- One observable action of the driver on its environment. -/
inductive Event where
  /-- The call `HAL_GPIO_Init(port, &gpio_init)`. -/
  | HAL_GPIO_Init (port : Nat) (gpio_init : GPIO_InitTypeDef)
  /-- The call `HAL_Delay(ms)`. -/
  | HAL_Delay (ms : Nat)
  /-- The call `HAL_GPIO_WritePin(port, pin, state)`. -/
  | HAL_GPIO_WritePin (port : Nat) (pin : Nat) (state : GPIO_PinState)
  /-- The call `lcd_delay_us(us)`: a busy wait. -/
  | lcd_delay_us (us : Nat)
  deriving DecidableEq, Repr

/-- Driver state: the static `current_config` and the events so far, oldest first. -/
structure State where
  current_config : lcd_config
  trace : List Event
  deriving DecidableEq, Repr

/-- The configuration of `examples/basic_display.c` (NUCLEO-C031C6), with the port
addresses and pin masks of that board: `GPIOA = 0x50000000`, `GPIOB = 0x50000400`,
`GPIO_PIN_n = 1 << n`. -/
def basic_display.config : lcd_config :=
  { pins :=
      { rs := ⟨0x50000400, 0x0008⟩
        en := ⟨0x50000000, 0x0400⟩
        data0 := ⟨0x50000400, 0x0400⟩
        data1 := ⟨0x50000400, 0x0010⟩
        data2 := ⟨0x50000400, 0x0020⟩
        data3 := ⟨0x50000000, 0x8000⟩ }
    timing :=
      { init_delay := 50000, enable_pulse_us := 1, cmd_delay_us := 50, clear_delay_us := 2000 }
    display :=
      { cursor_on := false, cursor_blink := false, display_on := true, two_lines := true,
        big_font := false } }

/-- The glyph `bell_pattern` of `examples/custom_char.c`, as its indexing function. -/
def bell_pattern : Nat → Nat
  | 0 => 0b00100
  | 1 => 0b01110
  | 2 => 0b01110
  | 3 => 0b01110
  | 4 => 0b11111
  | 5 => 0b00000
  | 6 => 0b00100
  | _ => 0b00000

/-! ## The hardware abstraction layer, as seen by the driver -/

/-- The external `HAL_GPIO_Init`: recorded in the trace. -/
def HAL_GPIO_Init (port : Nat) (gpio_init : GPIO_InitTypeDef) (s : State) : State :=
  { s with trace := s.trace ++ [Event.HAL_GPIO_Init port gpio_init] }

/-- The external `HAL_Delay` (milliseconds): recorded in the trace. -/
def HAL_Delay (ms : Nat) (s : State) : State :=
  { s with trace := s.trace ++ [Event.HAL_Delay ms] }

/-- The external `HAL_GPIO_WritePin`: recorded in the trace. -/
def HAL_GPIO_WritePin (port pin : Nat) (state : GPIO_PinState) (s : State) : State :=
  { s with trace := s.trace ++ [Event.HAL_GPIO_WritePin port pin state] }

/-! ## Private functions of `hd44780.c` -/

/-- Source `lcd_gpio_write`: one `HAL_GPIO_WritePin` call. -/
def lcd_gpio_write (gpio : lcd_gpio_config) (state : GPIO_PinState) (s : State) : State :=
  HAL_GPIO_WritePin gpio.port gpio.pin state s

/-- Source `lcd_delay_us`: blocks for `us` microseconds; the call is the event. -/
def lcd_delay_us (us : Nat) (s : State) : State :=
  { s with trace := s.trace ++ [Event.lcd_delay_us us] }

/-- Source `lcd_pulse_enable`. -/
def lcd_pulse_enable (s : State) : State :=
  let s := lcd_gpio_write s.current_config.pins.en GPIO_PinState.GPIO_PIN_RESET s
  let s := lcd_delay_us 1 s
  let s := lcd_gpio_write s.current_config.pins.en GPIO_PinState.GPIO_PIN_SET s
  let s := lcd_delay_us s.current_config.timing.enable_pulse_us s
  lcd_gpio_write s.current_config.pins.en GPIO_PinState.GPIO_PIN_RESET s

/-- Source `lcd_write_4bits`: the loop `for (i = 0; i < 4; i++)` over the data lines, then
the enable pulse. -/
def lcd_write_4bits (data : Nat) (s : State) : State :=
  let s := (List.range 4).foldl
    (fun s i =>
      lcd_gpio_write (s.current_config.pins.data i)
        (if (data >>> i) &&& 0x01 ≠ 0 then GPIO_PinState.GPIO_PIN_SET
         else GPIO_PinState.GPIO_PIN_RESET) s)
    s
  lcd_pulse_enable s

/-- Source `lcd_write_byte`: register select, high nibble, low nibble, command delay. -/
def lcd_write_byte (data : Nat) (is_cmd : Bool) (s : State) : State :=
  let s := lcd_gpio_write s.current_config.pins.rs
    (if is_cmd then GPIO_PinState.GPIO_PIN_RESET else GPIO_PinState.GPIO_PIN_SET) s
  let s := lcd_write_4bits (data >>> 4) s
  let s := lcd_write_4bits (data &&& 0x0F) s
  lcd_delay_us s.current_config.timing.cmd_delay_us s

/-! ## Public functions of `hd44780.c` -/

/-- Source `lcd_clear`. -/
def lcd_clear (s : State) : Int × State :=
  let s := lcd_write_byte LCD_CMD_CLEAR true s
  let s := lcd_delay_us s.current_config.timing.clear_delay_us s
  (LCD_SUCCESS, s)

/-- Source `lcd_home`. -/
def lcd_home (s : State) : Int × State :=
  let s := lcd_write_byte LCD_CMD_HOME true s
  let s := lcd_delay_us s.current_config.timing.cmd_delay_us s
  (LCD_SUCCESS, s)

/-- Source `lcd_init`; `none` is the null pointer. -/
def lcd_init (config : Option lcd_config) (s : State) : Int × State :=
  match config with
  | none => (LCD_ERR_PARAM, s)
  | some config =>
    let s := { s with current_config := config }
    let gpio_init : GPIO_InitTypeDef :=
      { Pin := 0, Mode := GPIO_Mode.GPIO_MODE_OUTPUT_PP, Pull := GPIO_Pull.GPIO_NOPULL,
        Speed := GPIO_Speed.GPIO_SPEED_FREQ_LOW }
    let gpio_init := { gpio_init with Pin := config.pins.rs.pin }
    let s := HAL_GPIO_Init config.pins.rs.port gpio_init s
    let gpio_init := { gpio_init with Pin := config.pins.en.pin }
    let s := HAL_GPIO_Init config.pins.en.port gpio_init s
    let s := (List.range 4).foldl
      (fun s i =>
        HAL_GPIO_Init (config.pins.data i).port { gpio_init with Pin := (config.pins.data i).pin } s)
      s
    let s := HAL_Delay (config.timing.init_delay / 1000) s
    let s := lcd_write_4bits 0x03 s
    let s := lcd_delay_us 4500 s
    let s := lcd_write_4bits 0x03 s
    let s := lcd_delay_us 4500 s
    let s := lcd_write_4bits 0x03 s
    let s := lcd_delay_us 150 s
    let s := lcd_write_4bits 0x02 s
    let function := LCD_CMD_FUNCTION_SET
    let function := if config.display.two_lines then (function ||| LCD_TWO_LINE) % 256 else function
    let function := if config.display.big_font then (function ||| LCD_5x10_DOTS) % 256 else function
    let s := lcd_write_byte function true s
    let display := LCD_CMD_DISPLAY_CTRL
    let display := if config.display.display_on then (display ||| LCD_DISPLAY_ON) % 256 else display
    let display := if config.display.cursor_on then (display ||| LCD_CURSOR_ON) % 256 else display
    let display := if config.display.cursor_blink then (display ||| LCD_BLINK_ON) % 256 else display
    let s := lcd_write_byte display true s
    let s := (lcd_clear s).2
    (LCD_SUCCESS, s)

/-- Source `lcd_set_cursor_xy`. -/
def lcd_set_cursor_xy (row column : Nat) (s : State) : Int × State :=
  if row ≥ LCD_ROWS ∨ column ≥ LCD_COLUMNS then (LCD_ERR_PARAM, s)
  else
    match row with
    | 0 =>
      let address := (LCD_ROW_OFFSET_0 + column) % 256
      (LCD_SUCCESS, lcd_write_byte ((LCD_CMD_DDRAM_ADDR ||| address) % 256) true s)
    | 1 =>
      let address := (LCD_ROW_OFFSET_1 + column) % 256
      (LCD_SUCCESS, lcd_write_byte ((LCD_CMD_DDRAM_ADDR ||| address) % 256) true s)
    | _ => (LCD_ERR_PARAM, s)

/-- Source `lcd_create_char`; `none` is the null pointer, `pattern i` is `pattern[i]`. -/
def lcd_create_char (location : Nat) (pattern : Option (Nat → Nat)) (s : State) : Int × State :=
  if location > 7 then (LCD_ERR_PARAM, s)
  else
    match pattern with
    | none => (LCD_ERR_PARAM, s)
    | some pattern =>
      let s := lcd_write_byte ((LCD_CMD_CGRAM_ADDR ||| (location <<< 3)) % 256) true s
      let s := (List.range 8).foldl (fun s i => lcd_write_byte (pattern i) false s) s
      let s := lcd_write_byte LCD_CMD_DDRAM_ADDR true s
      (LCD_SUCCESS, s)

/-- Source `lcd_set_display`; `none` is the null pointer. -/
def lcd_set_display (config : Option lcd_display_config) (s : State) : Int × State :=
  match config with
  | none => (LCD_ERR_PARAM, s)
  | some config =>
    let display := LCD_CMD_DISPLAY_CTRL
    let display := if config.display_on then (display ||| LCD_DISPLAY_ON) % 256 else display
    let display := if config.cursor_on then (display ||| LCD_CURSOR_ON) % 256 else display
    let display := if config.cursor_blink then (display ||| LCD_BLINK_ON) % 256 else display
    let s := lcd_write_byte display true s
    let s := { s with current_config := { s.current_config with display := config } }
    (LCD_SUCCESS, s)

/-- Source `lcd_write_char`: the cast `(uint8_t) c` is `c % 256`. -/
def lcd_write_char (c : Nat) (s : State) : Int × State :=
  (LCD_SUCCESS, lcd_write_byte (c % 256) false s)

/-- The loop `while (*str) lcd_write_char(*str++)` over the bytes at `str`: it stops at
the first zero byte, which at the latest is the terminator after the last list element. -/
def lcd_write_string_loop : List Nat → State → State
  | [], s => s
  | c :: str, s => if c ≠ 0 then lcd_write_string_loop str (lcd_write_char c s).2 else s

/-- Source `lcd_write_string`; `none` is the null pointer. -/
def lcd_write_string (str : Option (List Nat)) (s : State) : Int × State :=
  match str with
  | none => (LCD_ERR_PARAM, s)
  | some str => (LCD_SUCCESS, lcd_write_string_loop str s)

/-! ## Reading a trace as nibble writes and byte transfers -/

/-- One byte-level transfer: the arguments of a call of `lcd_write_byte`. -/
structure Transfer where
  value : Nat
  is_cmd : Bool
  deriving DecidableEq, Repr

/-- The events one call `lcd_write_4bits(data)` emits under configuration `cfg`. -/
def nibble_events (cfg : lcd_config) (data : Nat) : List Event :=
  (lcd_write_4bits data ⟨cfg, []⟩).trace

/-- The events one call `lcd_write_byte(value, is_cmd)` emits under configuration `cfg`. -/
def transfer_events (cfg : lcd_config) (t : Transfer) : List Event :=
  (lcd_write_byte t.value t.is_cmd ⟨cfg, []⟩).trace

/-- The events of a sequence of byte-level transfers, in order. -/
def log_events (cfg : lcd_config) (log : List Transfer) : List Event :=
  log.flatMap (transfer_events cfg)

/-- The events `lcd_init` emits before its first nibble write: the six pin configurations
(register select, enable, data lines 0..3) and the power-up wait in milliseconds. -/
def init_setup_events (cfg : lcd_config) : List Event :=
  let out (g : lcd_gpio_config) : Event :=
    Event.HAL_GPIO_Init g.port
      { Pin := g.pin, Mode := GPIO_Mode.GPIO_MODE_OUTPUT_PP, Pull := GPIO_Pull.GPIO_NOPULL,
        Speed := GPIO_Speed.GPIO_SPEED_FREQ_LOW }
  [out cfg.pins.rs, out cfg.pins.en, out cfg.pins.data0, out cfg.pins.data1,
   out cfg.pins.data2, out cfg.pins.data3, Event.HAL_Delay (cfg.timing.init_delay / 1000)]

/-- The function-set byte as the specification words it: bus width fixed at 4 bits (flag
`0x10` absent), line count and font height from the configuration. -/
def spec_function_set_byte (d : lcd_display_config) : Nat :=
  0x20 ||| (if d.two_lines then 0x08 else 0x00) ||| (if d.big_font then 0x04 else 0x00)

/-- The display-control byte as the specification words it: display on/off, cursor and
blink from the supplied flags. -/
def spec_display_ctrl_byte (d : lcd_display_config) : Nat :=
  0x08 ||| (if d.display_on then 0x04 else 0x00) ||| (if d.cursor_on then 0x02 else 0x00)
    ||| (if d.cursor_blink then 0x01 else 0x00)

/-! ## The busy wait inside `lcd_delay_us` -/

/-- The spin count `lcd_delay_us(us)` computes, `(SystemCoreClock / 1000000U) * us / 5`, in
`uint32_t` arithmetic: the product wraps modulo `2 ^ 32` before the division by five.
`SystemCoreClock` is the HAL's global core clock frequency in hertz. -/
def lcd_delay_us_count (SystemCoreClock us : Nat) : Nat :=
  ((SystemCoreClock / 1000000) * us % 2 ^ 32) / 5

/-- The loop `while (count--) { __NOP(); }` of `lcd_delay_us`: from a counter value and the
number of `__NOP()` executed so far to the number executed when the loop exits. -/
def lcd_delay_us_spin : Nat → Nat → Nat
  | 0, nops => nops
  | count + 1, nops => lcd_delay_us_spin count (nops + 1)

/-- The number of spin iterations of one call `lcd_delay_us(us)`. -/
def lcd_delay_us_iterations (SystemCoreClock us : Nat) : Nat :=
  lcd_delay_us_spin (lcd_delay_us_count SystemCoreClock us) 0

/-! ## The public interface as a type of operations -/

/-- One call of a public function of `hd44780.h` with its arguments. -/
inductive Op where
  | init (config : Option lcd_config)
  | clear
  | home
  | set_cursor_xy (row column : Nat)
  | write_char (c : Nat)
  | write_string (str : Option (List Nat))
  | create_char (location : Nat) (pattern : Option (Nat → Nat))
  | set_display (config : Option lcd_display_config)

/-- Performing one operation: the call of the function of that name. -/
def Op.run : Op → State → Int × State
  | Op.init config, s => lcd_init config s
  | Op.clear, s => lcd_clear s
  | Op.home, s => lcd_home s
  | Op.set_cursor_xy row column, s => lcd_set_cursor_xy row column s
  | Op.write_char c, s => lcd_write_char c s
  | Op.write_string str, s => lcd_write_string str s
  | Op.create_char location pattern, s => lcd_create_char location pattern s
  | Op.set_display config, s => lcd_set_display config s

/-- Performing a sequence of operations one after the other, statuses ignored. -/
def run_ops (ops : List Op) (s : State) : State :=
  ops.foldl (fun s op => (op.run s).2) s

/-! ## The byte-level transfer log of a trace

What a capturing test double sees is the pin-level trace. Its byte-level transfers are
recovered from the shape of the trace alone, whatever the pins are: a byte transfer starts
with six pin writes in a row (register select, four data lines, enable low), a lone nibble
with five (four data lines, enable low). -/

/-- Whether an event is a pin write. -/
def is_pin_write : Event → Bool
  | Event.HAL_GPIO_WritePin _ _ _ => true
  | _ => false

/-- The level a pin write drives, as a bit; other events count as `0`. -/
def pin_level : Event → Nat
  | Event.HAL_GPIO_WritePin _ _ GPIO_PinState.GPIO_PIN_SET => 1
  | _ => 0

/-- The level of the `i`-th event of a list, as a bit. -/
def level_at (l : List Event) (i : Nat) : Nat :=
  match l[i]? with
  | some e => pin_level e
  | none => 0

/-- The byte transfer that starts at the head of `l`: register select is event 0, the high
nibble is on events 1..4 (least significant bit first), the low nibble on events 10..13. -/
def read_transfer (l : List Event) : Transfer :=
  { value :=
      16 * (level_at l 1 + 2 * level_at l 2 + 4 * level_at l 3 + 8 * level_at l 4)
        + (level_at l 10 + 2 * level_at l 11 + 4 * level_at l 12 + 8 * level_at l 13)
    is_cmd := level_at l 0 == 0 }

/-- The transfer log of a trace, with the number of events still to skip because they
belong to a transfer or nibble already read. -/
def transfer_log_aux : Nat → List Event → List Transfer
  | _, [] => []
  | skip + 1, _ :: l => transfer_log_aux skip l
  | 0, e :: l =>
    if is_pin_write e then
      if (match l[4]? with | some e' => is_pin_write e' | none => false) then
        read_transfer (e :: l) :: transfer_log_aux 19 l
      else transfer_log_aux 8 l
    else transfer_log_aux 0 l

/-- The byte-level transfer log of a pin-level trace. -/
def transfer_log (tr : List Event) : List Transfer :=
  transfer_log_aux 0 tr

/-! ## Reference model of the controller -/

/-- The two addressing modes of the controller. -/
inductive AddressMode where
  | DDRAM
  | CGRAM
  deriving DecidableEq, Repr

/-- The addressing mode after one transfer: a command with bit 7 set, or the clear or home
command, selects DDRAM; a command with bit 7 clear and bit 6 set selects CGRAM; every other
transfer leaves the mode as it is. -/
def AddressMode.receive (m : AddressMode) (t : Transfer) : AddressMode :=
  if t.is_cmd then
    if t.value &&& 0x80 ≠ 0 ∨ t.value = LCD_CMD_CLEAR ∨ t.value = LCD_CMD_HOME then
      AddressMode.DDRAM
    else if t.value &&& 0x40 ≠ 0 then AddressMode.CGRAM
    else m
  else m

/-- The addressing mode after a transfer log. -/
def mode_after (m : AddressMode) (log : List Transfer) : AddressMode :=
  log.foldl AddressMode.receive m

/-- The values of the data bytes of a log that arrive while the controller is in CGRAM
mode, in order, for a log that starts in mode `m`. -/
def cgram_data : AddressMode → List Transfer → List Nat
  | _, [] => []
  | m, t :: log =>
    if t.is_cmd = false ∧ m = AddressMode.CGRAM then t.value :: cgram_data (m.receive t) log
    else cgram_data (m.receive t) log

/-- The values of the data bytes of a log that arrive while the controller is in DDRAM
mode, in order, for a log that starts in mode `m`. -/
def ddram_data : AddressMode → List Transfer → List Nat
  | _, [] => []
  | m, t :: log =>
    if t.is_cmd = false ∧ m = AddressMode.DDRAM then t.value :: ddram_data (m.receive t) log
    else ddram_data (m.receive t) log

/-- The display memory side of the controller: the DDRAM address counter and the DDRAM
contents. -/
structure Controller where
  address : Nat
  ddram : Nat → Nat

/-- The reference controller receives one transfer: the clear command sets the DDRAM address
to 0, a set-DDRAM-address command (bit 7 set) sets it to the low seven bits, a data byte is
stored at the current address, which then increments; other commands change neither. -/
def Controller.receive (c : Controller) (t : Transfer) : Controller :=
  if t.is_cmd then
    if t.value = LCD_CMD_CLEAR then { c with address := 0 }
    else if t.value &&& LCD_CMD_DDRAM_ADDR ≠ 0 then { c with address := t.value &&& 0x7F }
    else c
  else { address := c.address + 1, ddram := Function.update c.ddram c.address t.value }

/-- Replaying a transfer log on the reference controller. -/
def Controller.replay (c : Controller) (log : List Transfer) : Controller :=
  log.foldl Controller.receive c

/-- The character-generator memory writes of a transfer log on the reference controller, as
pairs of CGRAM address and value, in order, for a log that starts in mode `m` with CGRAM
address counter `a`. A command with bit 7 clear and bit 6 set loads the six-bit counter with
its low six bits; a data byte received in CGRAM mode is stored at the counter's address,
which then increments; the mode follows `AddressMode.receive`. -/
def cgram_writes : AddressMode → Nat → List Transfer → List (Nat × Nat)
  | _, _, [] => []
  | m, a, t :: log =>
    if t.is_cmd then
      if t.value &&& 0x80 = 0 ∧ t.value &&& 0x40 ≠ 0 then
        cgram_writes (m.receive t) (t.value &&& 0x3F) log
      else cgram_writes (m.receive t) a log
    else if m = AddressMode.CGRAM then (a, t.value) :: cgram_writes m ((a + 1) % 64) log
    else cgram_writes m a log

/-! ## Byte transfers written out pin by pin

These definitions do not go through `lcd_write_byte` or `lcd_write_4bits`: they list the
events the specification asks for. -/

/-- The events a call added to the trace: what the trace of `after` holds beyond the length
of the trace of `before`. -/
def emitted (before after : State) : List Event :=
  after.trace.drop before.trace.length

/-- One nibble on the bus, as the specification words it: the four data lines are driven to
bits 0..3 of the value, first line first, then enable is pulsed: low, one microsecond, high,
the configured pulse width, low. -/
def spec_nibble_events (cfg : lcd_config) (v : Nat) : List Event :=
  [Event.HAL_GPIO_WritePin cfg.pins.data0.port cfg.pins.data0.pin
     (if v.testBit 0 then GPIO_PinState.GPIO_PIN_SET else GPIO_PinState.GPIO_PIN_RESET),
   Event.HAL_GPIO_WritePin cfg.pins.data1.port cfg.pins.data1.pin
     (if v.testBit 1 then GPIO_PinState.GPIO_PIN_SET else GPIO_PinState.GPIO_PIN_RESET),
   Event.HAL_GPIO_WritePin cfg.pins.data2.port cfg.pins.data2.pin
     (if v.testBit 2 then GPIO_PinState.GPIO_PIN_SET else GPIO_PinState.GPIO_PIN_RESET),
   Event.HAL_GPIO_WritePin cfg.pins.data3.port cfg.pins.data3.pin
     (if v.testBit 3 then GPIO_PinState.GPIO_PIN_SET else GPIO_PinState.GPIO_PIN_RESET),
   Event.HAL_GPIO_WritePin cfg.pins.en.port cfg.pins.en.pin GPIO_PinState.GPIO_PIN_RESET,
   Event.lcd_delay_us 1,
   Event.HAL_GPIO_WritePin cfg.pins.en.port cfg.pins.en.pin GPIO_PinState.GPIO_PIN_SET,
   Event.lcd_delay_us cfg.timing.enable_pulse_us,
   Event.HAL_GPIO_WritePin cfg.pins.en.port cfg.pins.en.pin GPIO_PinState.GPIO_PIN_RESET]

/-- One byte transfer on the bus, as the specification words it: the register-select line
is driven low for a command and high for character data, then the high nibble (`value / 16`)
and the low nibble (`value % 16`) are written, then the inter-command delay is waited. -/
def spec_transfer_events (cfg : lcd_config) (t : Transfer) : List Event :=
  Event.HAL_GPIO_WritePin cfg.pins.rs.port cfg.pins.rs.pin
      (if t.is_cmd then GPIO_PinState.GPIO_PIN_RESET else GPIO_PinState.GPIO_PIN_SET) ::
    (spec_nibble_events cfg (t.value / 16) ++ spec_nibble_events cfg (t.value % 16) ++
      [Event.lcd_delay_us cfg.timing.cmd_delay_us])

/-- A sequence of byte transfers on the bus, pin by pin, in order. -/
def spec_log_events (cfg : lcd_config) (log : List Transfer) : List Event :=
  log.flatMap (spec_transfer_events cfg)

/-- The end-to-end scenario of the specification, after `examples/basic_display.c`:
`lcd_init(&cfg)`, `lcd_write_string("HI")`, `lcd_set_cursor_xy(1, 0)`,
`lcd_write_string("LO")`. Returns the four statuses in call order and the final state. -/
def hi_lo_scenario (cfg : lcd_config) (s : State) : List Int × State :=
  let r1 := lcd_init (some cfg) s
  let r2 := lcd_write_string (some [0x48, 0x49]) r1.2
  let r3 := lcd_set_cursor_xy 1 0 r2.2
  let r4 := lcd_write_string (some [0x4C, 0x4F]) r3.2
  ([r1.1, r2.1, r3.1, r4.1], r4.2)

/-- A stretch of trace is framed when the transfer log reads it completely before going on:
reading it followed by any further events gives its own log followed by theirs. -/
def Framed (A : List Event) : Prop :=
  ∀ l : List Event, transfer_log_aux 0 (A ++ l) = transfer_log A ++ transfer_log_aux 0 l

/-- A transfer as the controller receives it: the value is one byte. -/
def Transfer.received (t : Transfer) : Transfer :=
  { value := t.value % 256, is_cmd := t.is_cmd }

/-- The byte transfers each operation issues, by argument: nothing on a parameter error. -/
def Op.transfers : Op → List Transfer
  | Op.init none => []
  | Op.init (some cfg) =>
    [⟨spec_function_set_byte cfg.display, true⟩, ⟨spec_display_ctrl_byte cfg.display, true⟩,
     ⟨0x01, true⟩]
  | Op.clear => [⟨0x01, true⟩]
  | Op.home => [⟨0x02, true⟩]
  | Op.set_cursor_xy row column =>
    if row < 2 ∧ column < 16 then
      [⟨0x80 ||| ((if row = 0 then 0x00 else 0x40) + column), true⟩]
    else []
  | Op.write_char c => [⟨c % 256, false⟩]
  | Op.write_string none => []
  | Op.write_string (some str) => (str.takeWhile (fun c => c ≠ 0)).map (fun c => ⟨c % 256, false⟩)
  | Op.create_char _ none => []
  | Op.create_char location (some pattern) =>
    if location ≤ 7 then
      ⟨0x40 ||| (location <<< 3), true⟩ ::
        ((List.range 8).map (fun i => (⟨pattern i % 256, false⟩ : Transfer)) ++ [⟨0x80, true⟩])
    else []
  | Op.set_display none => []
  | Op.set_display (some d) => [⟨spec_display_ctrl_byte d, true⟩]

/-- The pattern bytes of an operation: the eight bytes of a successful `lcd_create_char`,
nothing for any other operation. -/
def Op.pattern_bytes : Op → List Nat
  | Op.create_char location (some pattern) =>
    if location ≤ 7 then (List.range 8).map (fun i => pattern i % 256) else []
  | _ => []

/-! ## Frame and trace lemmas for the private functions -/

theorem lcd_write_4bits_config (data : Nat) (s : State) :
    (lcd_write_4bits data s).current_config = s.current_config := by
  simp [lcd_write_4bits, lcd_pulse_enable, lcd_gpio_write, HAL_GPIO_WritePin, lcd_delay_us,
    List.range, List.range.loop]

theorem lcd_write_4bits_trace (data : Nat) (s : State) :
    (lcd_write_4bits data s).trace = s.trace ++ nibble_events s.current_config data := by
  simp [nibble_events, lcd_write_4bits, lcd_pulse_enable, lcd_gpio_write, HAL_GPIO_WritePin,
    lcd_delay_us, List.range, List.range.loop]

theorem lcd_write_byte_config (data : Nat) (is_cmd : Bool) (s : State) :
    (lcd_write_byte data is_cmd s).current_config = s.current_config := by
  simp [lcd_write_byte, lcd_write_4bits_config, lcd_gpio_write, HAL_GPIO_WritePin, lcd_delay_us]

theorem lcd_write_byte_trace (data : Nat) (is_cmd : Bool) (s : State) :
    (lcd_write_byte data is_cmd s).trace
      = s.trace ++ transfer_events s.current_config ⟨data, is_cmd⟩ := by
  simp [transfer_events, lcd_write_byte, lcd_write_4bits_config, lcd_write_4bits_trace,
    lcd_gpio_write, HAL_GPIO_WritePin, lcd_delay_us]

/-- The pin-level shape of one nibble write: the four data lines, least significant bit
first, then the enable pulse. -/
theorem nibble_events_eq (cfg : lcd_config) (data : Nat) :
    nibble_events cfg data =
      [Event.HAL_GPIO_WritePin cfg.pins.data0.port cfg.pins.data0.pin
         (if (data >>> 0) &&& 1 ≠ 0 then GPIO_PinState.GPIO_PIN_SET else GPIO_PinState.GPIO_PIN_RESET),
       Event.HAL_GPIO_WritePin cfg.pins.data1.port cfg.pins.data1.pin
         (if (data >>> 1) &&& 1 ≠ 0 then GPIO_PinState.GPIO_PIN_SET else GPIO_PinState.GPIO_PIN_RESET),
       Event.HAL_GPIO_WritePin cfg.pins.data2.port cfg.pins.data2.pin
         (if (data >>> 2) &&& 1 ≠ 0 then GPIO_PinState.GPIO_PIN_SET else GPIO_PinState.GPIO_PIN_RESET),
       Event.HAL_GPIO_WritePin cfg.pins.data3.port cfg.pins.data3.pin
         (if (data >>> 3) &&& 1 ≠ 0 then GPIO_PinState.GPIO_PIN_SET else GPIO_PinState.GPIO_PIN_RESET),
       Event.HAL_GPIO_WritePin cfg.pins.en.port cfg.pins.en.pin GPIO_PinState.GPIO_PIN_RESET,
       Event.lcd_delay_us 1,
       Event.HAL_GPIO_WritePin cfg.pins.en.port cfg.pins.en.pin GPIO_PinState.GPIO_PIN_SET,
       Event.lcd_delay_us cfg.timing.enable_pulse_us,
       Event.HAL_GPIO_WritePin cfg.pins.en.port cfg.pins.en.pin GPIO_PinState.GPIO_PIN_RESET] := by
  simp [nibble_events, lcd_write_4bits, lcd_pulse_enable, lcd_gpio_write, HAL_GPIO_WritePin,
    lcd_delay_us, List.range, List.range.loop, lcd_pins_config.data]

/-- The shape of one byte-level transfer: register select (low for a command, high for
character data), high nibble, low nibble, command delay. -/
theorem transfer_events_eq (cfg : lcd_config) (t : Transfer) :
    transfer_events cfg t =
      Event.HAL_GPIO_WritePin cfg.pins.rs.port cfg.pins.rs.pin
          (if t.is_cmd then GPIO_PinState.GPIO_PIN_RESET else GPIO_PinState.GPIO_PIN_SET) ::
        (nibble_events cfg (t.value >>> 4) ++ nibble_events cfg (t.value &&& 0x0F) ++
          [Event.lcd_delay_us cfg.timing.cmd_delay_us]) := by
  simp [transfer_events, lcd_write_byte, lcd_write_4bits_config, lcd_write_4bits_trace,
    lcd_gpio_write, HAL_GPIO_WritePin, lcd_delay_us]

theorem transfer_events_length (cfg : lcd_config) (t : Transfer) :
    (transfer_events cfg t).length = 20 := by
  simp [transfer_events_eq, nibble_events_eq]

theorem log_events_nil (cfg : lcd_config) : log_events cfg [] = [] := rfl

theorem log_events_cons (cfg : lcd_config) (t : Transfer) (log : List Transfer) :
    log_events cfg (t :: log) = transfer_events cfg t ++ log_events cfg log := by
  simp [log_events]

theorem log_events_singleton (cfg : lcd_config) (t : Transfer) :
    log_events cfg [t] = transfer_events cfg t := by
  simp [log_events]

theorem log_events_append (cfg : lcd_config) (l₁ l₂ : List Transfer) :
    log_events cfg (l₁ ++ l₂) = log_events cfg l₁ ++ log_events cfg l₂ := by
  simp [log_events]

/-- The command byte carries its address in the low seven bits. -/
theorem ddram_command_value (row column : Nat) (hr : row < 2) (hc : column < 16) :
    (LCD_CMD_DDRAM_ADDR ||| ((if row = 0 then LCD_ROW_OFFSET_0 else LCD_ROW_OFFSET_1) + column) % 256)
        % 256 = 0x80 ||| ((if row = 0 then 0x00 else 0x40) + column) ∧
    (0x80 ||| ((if row = 0 then 0x00 else 0x40) + column)) &&& 0x7F
      = (if row = 0 then 0x00 else 0x40) + column := by
  interval_cases row <;> interval_cases column <;> decide

/-! ## Cursor positioning -/

/-- C1: `lcd_set_cursor_xy(row, column)` returns `LCD_SUCCESS` if and only if `row < 2` and
`column < 16`; for every other argument pair it returns `LCD_ERR_PARAM` and the driver state
(stored configuration and event trace) is exactly what it was, so the call emits no event:
no pin write, no delay, no byte transfer. -/
theorem lcd_set_cursor_xy_status (row column : Nat) (s : State) :
    ((lcd_set_cursor_xy row column s).1 = LCD_SUCCESS ↔ row < 2 ∧ column < 16) ∧
    (¬ (row < 2 ∧ column < 16) →
      (lcd_set_cursor_xy row column s).1 = LCD_ERR_PARAM ∧
      (lcd_set_cursor_xy row column s).2 = s) := by
  unfold lcd_set_cursor_xy
  by_cases h : row ≥ LCD_ROWS ∨ column ≥ LCD_COLUMNS
  · have h' : ¬ (row < 2 ∧ column < 16) := by
      simp only [LCD_ROWS, LCD_COLUMNS] at h
      omega
    simp [h, h', LCD_SUCCESS, LCD_ERR_PARAM]
  · have h' : row < 2 ∧ column < 16 := by
      simp only [LCD_ROWS, LCD_COLUMNS] at h
      omega
    obtain ⟨hr, hc⟩ := h'
    rw [if_neg h]
    interval_cases row <;> simp [hc, LCD_SUCCESS]

/-! ## Custom characters -/

/-- C4: `lcd_create_char` returns `LCD_ERR_PARAM` exactly when `slot > 7` or the pattern
pointer is null; whenever it does, the driver state (stored configuration and event trace)
is exactly what it was, so no transfer is issued. -/
theorem lcd_create_char_param (slot : Nat) (pattern : Option (Nat → Nat)) (s : State) :
    ((lcd_create_char slot pattern s).1 = LCD_ERR_PARAM ↔ (slot > 7 ∨ pattern = none)) ∧
    ((lcd_create_char slot pattern s).1 = LCD_ERR_PARAM →
      (lcd_create_char slot pattern s).2 = s) ∧
    ((lcd_create_char slot pattern s).1 = LCD_ERR_PARAM ∨
      (lcd_create_char slot pattern s).1 = LCD_SUCCESS) := by
  unfold lcd_create_char
  by_cases hg : slot > 7
  · simp [hg]
  · rw [if_neg hg]
    cases pattern with
    | none => simp
    | some p => simp [hg, LCD_SUCCESS, LCD_ERR_PARAM]

/-! ## Text output -/

theorem lcd_write_string_loop_foldl (str : List Nat) (s : State) (h : ∀ c ∈ str, c ≠ 0) :
    lcd_write_string_loop str s = str.foldl (fun s c => (lcd_write_char c s).2) s := by
  induction str generalizing s with
  | nil => rfl
  | cons c str ih =>
    have hc : c ≠ 0 := h c (List.mem_cons_self _ _)
    have hs : ∀ c' ∈ str, c' ≠ 0 := fun c' hc' => h c' (List.mem_cons_of_mem _ hc')
    simp [lcd_write_string_loop, hc, ih _ hs]

theorem lcd_write_string_loop_config (str : List Nat) (s : State) :
    (lcd_write_string_loop str s).current_config = s.current_config := by
  induction str generalizing s with
  | nil => rfl
  | cons c str ih =>
    by_cases hc : c = 0
    · simp [lcd_write_string_loop, hc]
    · simp [lcd_write_string_loop, hc, ih, lcd_write_char, lcd_write_byte_config]

theorem lcd_write_string_loop_trace (str : List Nat) (s : State)
    (h : ∀ c ∈ str, c ≠ 0 ∧ c < 256) :
    (lcd_write_string_loop str s).trace
      = s.trace ++ log_events s.current_config (str.map fun c => ⟨c, false⟩) := by
  induction str generalizing s with
  | nil => simp [lcd_write_string_loop, log_events_nil]
  | cons c str ih =>
    obtain ⟨hc, hb⟩ := h c (List.mem_cons_self _ _)
    have hs : ∀ c' ∈ str, c' ≠ 0 ∧ c' < 256 := fun c' hc' => h c' (List.mem_cons_of_mem _ hc')
    simp [lcd_write_string_loop, hc, ih _ hs, lcd_write_char, lcd_write_byte_config,
      lcd_write_byte_trace, log_events_cons, Nat.mod_eq_of_lt hb]

theorem lcd_write_string_loop_stop (str rest : List Nat) (s : State) (h : ∀ c ∈ str, c ≠ 0) :
    lcd_write_string_loop (str ++ 0 :: rest) s = lcd_write_string_loop str s := by
  induction str generalizing s with
  | nil => simp [lcd_write_string_loop]
  | cons c str ih =>
    have hc : c ≠ 0 := h c (List.mem_cons_self _ _)
    have hs : ∀ c' ∈ str, c' ≠ 0 := fun c' hc' => h c' (List.mem_cons_of_mem _ hc')
    simp [lcd_write_string_loop, hc, ih _ hs]

/-! ## Initialisation and display control -/

theorem lcd_clear_trace (s : State) :
    (lcd_clear s).2.trace = s.trace ++ transfer_events s.current_config ⟨0x01, true⟩ ++
      [Event.lcd_delay_us s.current_config.timing.clear_delay_us] := by
  simp [lcd_clear, lcd_write_byte_trace, lcd_write_byte_config, lcd_delay_us, LCD_CMD_CLEAR]

theorem lcd_clear_config (s : State) : (lcd_clear s).2.current_config = s.current_config := by
  simp [lcd_clear, lcd_write_byte_config, lcd_delay_us]

/-- The function-set byte `lcd_init` builds is the one the specification words. -/
theorem function_set_byte_eq (d : lcd_display_config) :
    (if d.big_font then
        ((if d.two_lines then (LCD_CMD_FUNCTION_SET ||| LCD_TWO_LINE) % 256
          else LCD_CMD_FUNCTION_SET) ||| LCD_5x10_DOTS) % 256
      else (if d.two_lines then (LCD_CMD_FUNCTION_SET ||| LCD_TWO_LINE) % 256
          else LCD_CMD_FUNCTION_SET)) = spec_function_set_byte d := by
  rcases d with ⟨c, b, o, t, f⟩
  cases c <;> cases b <;> cases o <;> cases t <;> cases f <;> decide

/-- The display-control byte `lcd_init` and `lcd_set_display` build is the one the
specification words. -/
theorem display_ctrl_byte_eq (d : lcd_display_config) :
    (if d.cursor_blink then
        ((if d.cursor_on then
            ((if d.display_on then (LCD_CMD_DISPLAY_CTRL ||| LCD_DISPLAY_ON) % 256
              else LCD_CMD_DISPLAY_CTRL) ||| LCD_CURSOR_ON) % 256
          else (if d.display_on then (LCD_CMD_DISPLAY_CTRL ||| LCD_DISPLAY_ON) % 256
              else LCD_CMD_DISPLAY_CTRL)) ||| LCD_BLINK_ON) % 256
      else (if d.cursor_on then
            ((if d.display_on then (LCD_CMD_DISPLAY_CTRL ||| LCD_DISPLAY_ON) % 256
              else LCD_CMD_DISPLAY_CTRL) ||| LCD_CURSOR_ON) % 256
          else (if d.display_on then (LCD_CMD_DISPLAY_CTRL ||| LCD_DISPLAY_ON) % 256
              else LCD_CMD_DISPLAY_CTRL))) = spec_display_ctrl_byte d := by
  rcases d with ⟨c, b, o, t, f⟩
  cases c <;> cases b <;> cases o <;> cases t <;> cases f <;> decide

theorem lcd_init_config (cfg : lcd_config) (s : State) :
    (lcd_init (some cfg) s).2.current_config = cfg := by
  simp [lcd_init, lcd_clear_config, lcd_write_byte_config, lcd_write_4bits_config, lcd_delay_us,
    HAL_Delay, HAL_GPIO_Init, List.range, List.range.loop]

/-- The complete event trace of a successful `lcd_init`. -/
theorem lcd_init_trace (cfg : lcd_config) (s : State) :
    (lcd_init (some cfg) s).2.trace = s.trace ++ init_setup_events cfg ++
      (nibble_events cfg 0x03 ++ [Event.lcd_delay_us 4500] ++
       nibble_events cfg 0x03 ++ [Event.lcd_delay_us 4500] ++
       nibble_events cfg 0x03 ++ [Event.lcd_delay_us 150] ++
       nibble_events cfg 0x02) ++
      log_events cfg [⟨spec_function_set_byte cfg.display, true⟩,
                      ⟨spec_display_ctrl_byte cfg.display, true⟩,
                      ⟨0x01, true⟩] ++
      [Event.lcd_delay_us cfg.timing.clear_delay_us] := by
  have hf := function_set_byte_eq cfg.display
  have hd := display_ctrl_byte_eq cfg.display
  simp only [lcd_init]
  rw [hf, hd]
  simp [lcd_clear_trace, lcd_clear_config, lcd_write_byte_trace, lcd_write_byte_config,
    lcd_write_4bits_trace, lcd_write_4bits_config, lcd_delay_us, HAL_Delay, HAL_GPIO_Init,
    List.range, List.range.loop, log_events_cons, log_events_nil, init_setup_events,
    lcd_pins_config.data]

/-- C6: for every present configuration, the events of `lcd_init` up to its first byte
transfer are the pin configuration and power-up wait (no pin write among them), then exactly
four nibble writes of values `0x3, 0x3, 0x3, 0x2` with delays of 4500, 4500 and 150
microseconds after the first three and nothing else in between; the function-set transfer
follows the fourth nibble directly. On the data lines `0x3` is high, high, low, low and
`0x2` is low, high, low, low (line 0 first). -/
theorem lcd_init_resync (cfg : lcd_config) (s : State) :
    (lcd_init (some cfg) s).2.trace = s.trace ++ init_setup_events cfg ++
      (nibble_events cfg 0x3 ++ [Event.lcd_delay_us 4500] ++
       nibble_events cfg 0x3 ++ [Event.lcd_delay_us 4500] ++
       nibble_events cfg 0x3 ++ [Event.lcd_delay_us 150] ++
       nibble_events cfg 0x2) ++
      (transfer_events cfg ⟨spec_function_set_byte cfg.display, true⟩ ++
        (log_events cfg [⟨spec_display_ctrl_byte cfg.display, true⟩, ⟨0x01, true⟩] ++
          [Event.lcd_delay_us cfg.timing.clear_delay_us])) ∧
    (∀ e ∈ init_setup_events cfg, ∀ port pin state, e ≠ Event.HAL_GPIO_WritePin port pin state) ∧
    nibble_events cfg 0x3 =
      [Event.HAL_GPIO_WritePin cfg.pins.data0.port cfg.pins.data0.pin GPIO_PinState.GPIO_PIN_SET,
       Event.HAL_GPIO_WritePin cfg.pins.data1.port cfg.pins.data1.pin GPIO_PinState.GPIO_PIN_SET,
       Event.HAL_GPIO_WritePin cfg.pins.data2.port cfg.pins.data2.pin GPIO_PinState.GPIO_PIN_RESET,
       Event.HAL_GPIO_WritePin cfg.pins.data3.port cfg.pins.data3.pin GPIO_PinState.GPIO_PIN_RESET,
       Event.HAL_GPIO_WritePin cfg.pins.en.port cfg.pins.en.pin GPIO_PinState.GPIO_PIN_RESET,
       Event.lcd_delay_us 1,
       Event.HAL_GPIO_WritePin cfg.pins.en.port cfg.pins.en.pin GPIO_PinState.GPIO_PIN_SET,
       Event.lcd_delay_us cfg.timing.enable_pulse_us,
       Event.HAL_GPIO_WritePin cfg.pins.en.port cfg.pins.en.pin GPIO_PinState.GPIO_PIN_RESET] ∧
    nibble_events cfg 0x2 =
      [Event.HAL_GPIO_WritePin cfg.pins.data0.port cfg.pins.data0.pin GPIO_PinState.GPIO_PIN_RESET,
       Event.HAL_GPIO_WritePin cfg.pins.data1.port cfg.pins.data1.pin GPIO_PinState.GPIO_PIN_SET,
       Event.HAL_GPIO_WritePin cfg.pins.data2.port cfg.pins.data2.pin GPIO_PinState.GPIO_PIN_RESET,
       Event.HAL_GPIO_WritePin cfg.pins.data3.port cfg.pins.data3.pin GPIO_PinState.GPIO_PIN_RESET,
       Event.HAL_GPIO_WritePin cfg.pins.en.port cfg.pins.en.pin GPIO_PinState.GPIO_PIN_RESET,
       Event.lcd_delay_us 1,
       Event.HAL_GPIO_WritePin cfg.pins.en.port cfg.pins.en.pin GPIO_PinState.GPIO_PIN_SET,
       Event.lcd_delay_us cfg.timing.enable_pulse_us,
       Event.HAL_GPIO_WritePin cfg.pins.en.port cfg.pins.en.pin GPIO_PinState.GPIO_PIN_RESET] := by
  refine ⟨?_, ?_, ?_, ?_⟩
  · rw [lcd_init_trace, log_events_cons]
    simp only [List.append_assoc]
  · intro e he port pin state
    simp only [init_setup_events, List.mem_cons, List.mem_singleton, List.not_mem_nil,
      or_false] at he
    rcases he with h | h | h | h | h | h | h <;> simp [h]
  · rw [nibble_events_eq]
    simp
  · rw [nibble_events_eq]
    simp

/-! ## Null arguments -/

/-- C8: with a null argument each of `lcd_init`, `lcd_set_display` and `lcd_write_string`
returns `LCD_ERR_PARAM` and the driver state (stored configuration and event trace) is
exactly what it was before the call: no pin configuration, no pin write, no delay. -/
theorem null_argument_rejected (s : State) :
    lcd_init none s = (LCD_ERR_PARAM, s) ∧
    lcd_set_display none s = (LCD_ERR_PARAM, s) ∧
    lcd_write_string none s = (LCD_ERR_PARAM, s) :=
  ⟨rfl, rfl, rfl⟩

/-! ## `lcd_set_display` -/

/-- C9: for every stored configuration and every present flag record `d`,
`lcd_set_display(d)` returns `LCD_SUCCESS` and afterwards the stored display section is `d`
(all five flags) while the stored pins and timing sections are those from before the call. -/
theorem lcd_set_display_frame (d : lcd_display_config) (s : State) :
    (lcd_set_display (some d) s).1 = LCD_SUCCESS ∧
    (lcd_set_display (some d) s).2.current_config.display = d ∧
    (lcd_set_display (some d) s).2.current_config.pins = s.current_config.pins ∧
    (lcd_set_display (some d) s).2.current_config.timing = s.current_config.timing := by
  simp [lcd_set_display, lcd_write_byte_config]

/-! ## Reading the transfer log off a trace -/

theorem transfer_log_aux_skip (A l : List Event) :
    transfer_log_aux A.length (A ++ l) = transfer_log_aux 0 l := by
  induction A with
  | nil => rfl
  | cons a A ih => simpa [transfer_log_aux] using ih

theorem transfer_log_aux_event (e : Event) (l : List Event) (h : is_pin_write e = false) :
    transfer_log_aux 0 (e :: l) = transfer_log_aux 0 l := by
  simp [transfer_log_aux, h]

theorem pin_level_bit (port pin data i : Nat) :
    pin_level (Event.HAL_GPIO_WritePin port pin
      (if (data >>> i) &&& 1 ≠ 0 then GPIO_PinState.GPIO_PIN_SET
       else GPIO_PinState.GPIO_PIN_RESET)) = data / 2 ^ i % 2 := by
  rw [Nat.and_one_is_mod, Nat.shiftRight_eq_div_pow]
  by_cases h : data / 2 ^ i % 2 = 0
  · simp [h, pin_level]
  · have h1 : data / 2 ^ i % 2 = 1 := by omega
    simp [h1, pin_level]

/-- Shape of a lone nibble: five pin writes, then a delay. -/
theorem transfer_log_aux_nibble_shape (e0 e1 e2 e3 e4 e5 e6 e7 e8 : Event) (l : List Event)
    (h0 : is_pin_write e0 = true) (h5 : is_pin_write e5 = false) :
    transfer_log_aux 0 (e0 :: e1 :: e2 :: e3 :: e4 :: e5 :: e6 :: e7 :: e8 :: l)
      = transfer_log_aux 0 l := by
  simp [transfer_log_aux, h0, h5]

/-- Shape of a byte transfer: six pin writes first. -/
theorem transfer_log_aux_transfer_shape
    (e0 e1 e2 e3 e4 e5 e6 e7 e8 e9 e10 e11 e12 e13 e14 e15 e16 e17 e18 e19 : Event)
    (l : List Event) (h0 : is_pin_write e0 = true) (h5 : is_pin_write e5 = true) :
    transfer_log_aux 0 (e0 :: e1 :: e2 :: e3 :: e4 :: e5 :: e6 :: e7 :: e8 :: e9 :: e10 ::
        e11 :: e12 :: e13 :: e14 :: e15 :: e16 :: e17 :: e18 :: e19 :: l)
      = { value := 16 * (pin_level e1 + 2 * pin_level e2 + 4 * pin_level e3 + 8 * pin_level e4)
            + (pin_level e10 + 2 * pin_level e11 + 4 * pin_level e12 + 8 * pin_level e13)
          is_cmd := pin_level e0 == 0 } :: transfer_log_aux 0 l := by
  simp [transfer_log_aux, h0, h5, read_transfer, level_at]

theorem transfer_log_aux_nibble (cfg : lcd_config) (data : Nat) (l : List Event) :
    transfer_log_aux 0 (nibble_events cfg data ++ l) = transfer_log_aux 0 l := by
  rw [nibble_events_eq]
  simp only [List.cons_append, List.nil_append]
  rw [transfer_log_aux_nibble_shape]
  · rfl
  · rfl

theorem transfer_log_aux_transfer (cfg : lcd_config) (t : Transfer) (l : List Event) :
    transfer_log_aux 0 (transfer_events cfg t ++ l) = t.received :: transfer_log_aux 0 l := by
  rw [transfer_events_eq, nibble_events_eq, nibble_events_eq]
  simp only [List.cons_append, List.nil_append]
  have h1 : t.value &&& 0x0F = t.value % 16 := Nat.and_pow_two_sub_one_eq_mod t.value 4
  have hv : 16 * ((t.value >>> 4) / 2 ^ 0 % 2 + 2 * ((t.value >>> 4) / 2 ^ 1 % 2)
        + 4 * ((t.value >>> 4) / 2 ^ 2 % 2) + 8 * ((t.value >>> 4) / 2 ^ 3 % 2))
      + ((t.value &&& 0x0F) / 2 ^ 0 % 2 + 2 * ((t.value &&& 0x0F) / 2 ^ 1 % 2)
        + 4 * ((t.value &&& 0x0F) / 2 ^ 2 % 2) + 8 * ((t.value &&& 0x0F) / 2 ^ 3 % 2))
      = t.value % 256 := by
    rw [h1, Nat.shiftRight_eq_div_pow]
    norm_num
    omega
  have hc : (pin_level (Event.HAL_GPIO_WritePin cfg.pins.rs.port cfg.pins.rs.pin
      (if t.is_cmd then GPIO_PinState.GPIO_PIN_RESET else GPIO_PinState.GPIO_PIN_SET)) == 0)
      = t.is_cmd := by
    cases t.is_cmd <;> rfl
  rw [transfer_log_aux_transfer_shape]
  · simp only [pin_level_bit]
    rw [hv, hc]
    rfl
  · rfl
  · rfl

theorem transfer_log_nil : transfer_log [] = [] := rfl

theorem framed_nil : Framed [] := by
  intro l
  simp [transfer_log_nil]

theorem framed_append (A B : List Event) (hA : Framed A) (hB : Framed B) :
    Framed (A ++ B) ∧ transfer_log (A ++ B) = transfer_log A ++ transfer_log B := by
  have h : transfer_log (A ++ B) = transfer_log A ++ transfer_log B := by
    have h1 := hA (B ++ [])
    have h2 := hB []
    simp only [List.append_nil] at h1 h2
    unfold transfer_log at *
    rw [h1]
  refine ⟨?_, h⟩
  intro l
  rw [h, List.append_assoc, hA (B ++ l), hB l, List.append_assoc]

theorem framed_event (e : Event) (h : is_pin_write e = false) :
    Framed [e] ∧ transfer_log [e] = [] := by
  have h0 : transfer_log [e] = [] := by
    unfold transfer_log
    rw [transfer_log_aux_event e [] h]
    rfl
  refine ⟨?_, h0⟩
  intro l
  rw [h0]
  exact transfer_log_aux_event e l h

theorem framed_nibble (cfg : lcd_config) (data : Nat) :
    Framed (nibble_events cfg data) ∧ transfer_log (nibble_events cfg data) = [] := by
  have h0 : transfer_log (nibble_events cfg data) = [] := by
    have h := transfer_log_aux_nibble cfg data []
    simp only [List.append_nil] at h
    unfold transfer_log
    rw [h]
    rfl
  refine ⟨?_, h0⟩
  intro l
  rw [h0]
  exact transfer_log_aux_nibble cfg data l

theorem framed_transfer (cfg : lcd_config) (t : Transfer) :
    Framed (transfer_events cfg t) ∧ transfer_log (transfer_events cfg t) = [t.received] := by
  have h0 : transfer_log (transfer_events cfg t) = [t.received] := by
    have h := transfer_log_aux_transfer cfg t []
    simp only [List.append_nil] at h
    unfold transfer_log
    rw [h]
    rfl
  refine ⟨?_, h0⟩
  intro l
  rw [h0]
  exact transfer_log_aux_transfer cfg t l

theorem framed_log_events (cfg : lcd_config) (log : List Transfer) :
    Framed (log_events cfg log) ∧
    transfer_log (log_events cfg log) = log.map Transfer.received := by
  induction log with
  | nil => exact ⟨by rw [log_events_nil]; exact framed_nil, by rw [log_events_nil]; rfl⟩
  | cons t log ih =>
    rw [log_events_cons]
    have h := framed_append _ _ (framed_transfer cfg t).1 ih.1
    refine ⟨h.1, ?_⟩
    rw [h.2, (framed_transfer cfg t).2, ih.2]
    rfl

/-! ## What each public function emits -/

theorem lcd_home_trace (s : State) :
    (lcd_home s).2.trace = s.trace ++ transfer_events s.current_config ⟨0x02, true⟩ ++
      [Event.lcd_delay_us s.current_config.timing.cmd_delay_us] := by
  simp [lcd_home, lcd_write_byte_trace, lcd_write_byte_config, lcd_delay_us, LCD_CMD_HOME]

theorem lcd_home_config (s : State) : (lcd_home s).2.current_config = s.current_config := by
  simp [lcd_home, lcd_write_byte_config, lcd_delay_us]

theorem lcd_set_cursor_xy_valid (row column : Nat) (s : State) (hr : row < 2)
    (hc : column < 16) :
    lcd_set_cursor_xy row column s = (LCD_SUCCESS,
      lcd_write_byte (0x80 ||| ((if row = 0 then 0x00 else 0x40) + column)) true s) := by
  have hv := (ddram_command_value row column hr hc).1
  have hg : ¬ (row ≥ LCD_ROWS ∨ column ≥ LCD_COLUMNS) := by
    simp only [LCD_ROWS, LCD_COLUMNS]
    omega
  unfold lcd_set_cursor_xy
  rw [if_neg hg]
  interval_cases row
  · simp only [] at hv ⊢
    simpa using congrArg (fun v => (LCD_SUCCESS, lcd_write_byte v true s)) hv
  · simpa using congrArg (fun v => (LCD_SUCCESS, lcd_write_byte v true s)) hv

theorem lcd_set_cursor_xy_invalid (row column : Nat) (s : State)
    (h : ¬ (row < 2 ∧ column < 16)) :
    lcd_set_cursor_xy row column s = (LCD_ERR_PARAM, s) := by
  have hg : row ≥ LCD_ROWS ∨ column ≥ LCD_COLUMNS := by
    simp only [LCD_ROWS, LCD_COLUMNS]
    omega
  unfold lcd_set_cursor_xy
  rw [if_pos hg]

theorem lcd_create_char_valid (location : Nat) (pattern : Nat → Nat) (s : State)
    (h : location ≤ 7) :
    (lcd_create_char location (some pattern) s).1 = LCD_SUCCESS ∧
    (lcd_create_char location (some pattern) s).2.current_config = s.current_config ∧
    (lcd_create_char location (some pattern) s).2.trace = s.trace ++
      log_events s.current_config
        (⟨0x40 ||| (location <<< 3), true⟩ ::
          ((List.range 8).map (fun i => (⟨pattern i, false⟩ : Transfer)) ++ [⟨0x80, true⟩])) := by
  have hv : (LCD_CMD_CGRAM_ADDR ||| (location <<< 3)) % 256 = 0x40 ||| (location <<< 3) := by
    interval_cases location <;> decide
  have hg : ¬ location > 7 := by omega
  unfold lcd_create_char
  rw [if_neg hg]
  simp [hv, List.range, List.range.loop, lcd_write_byte_trace, lcd_write_byte_config,
    log_events_cons, log_events_nil, LCD_CMD_DDRAM_ADDR]

theorem lcd_create_char_invalid (location : Nat) (pattern : Option (Nat → Nat)) (s : State)
    (h : location > 7 ∨ pattern = none) :
    lcd_create_char location pattern s = (LCD_ERR_PARAM, s) := by
  unfold lcd_create_char
  by_cases hg : location > 7
  · rw [if_pos hg]
  · rw [if_neg hg]
    rcases h with h | h
    · exact absurd h hg
    · subst h
      rfl

theorem lcd_set_display_trace (d : lcd_display_config) (s : State) :
    (lcd_set_display (some d) s).2.trace
      = s.trace ++ transfer_events s.current_config ⟨spec_display_ctrl_byte d, true⟩ := by
  have hd := display_ctrl_byte_eq d
  simp only [lcd_set_display]
  rw [hd]
  exact lcd_write_byte_trace _ _ _

theorem lcd_write_string_loop_events (str : List Nat) (s : State) :
    (lcd_write_string_loop str s).trace = s.trace ++ log_events s.current_config
      ((str.takeWhile (fun c => c ≠ 0)).map (fun c => ⟨c % 256, false⟩)) := by
  induction str generalizing s with
  | nil => simp [lcd_write_string_loop, log_events_nil]
  | cons c str ih =>
    by_cases hc : c = 0
    · simp [lcd_write_string_loop, hc, log_events_nil]
    · simp [lcd_write_string_loop, hc, ih, lcd_write_char, lcd_write_byte_config,
        lcd_write_byte_trace, log_events_cons]

/-! ## The transfer log of each operation and of a sequence of operations -/

theorem framed_log_append {A B : List Event} {LA LB : List Transfer}
    (hA : Framed A ∧ transfer_log A = LA) (hB : Framed B ∧ transfer_log B = LB) :
    Framed (A ++ B) ∧ transfer_log (A ++ B) = LA ++ LB := by
  have h := framed_append A B hA.1 hB.1
  exact ⟨h.1, by rw [h.2, hA.2, hB.2]⟩

theorem framed_delay (us : Nat) :
    Framed [Event.lcd_delay_us us] ∧ transfer_log [Event.lcd_delay_us us] = [] :=
  framed_event _ rfl

theorem framed_events (A : List Event) (h : ∀ e ∈ A, is_pin_write e = false) :
    Framed A ∧ transfer_log A = [] := by
  induction A with
  | nil => exact ⟨framed_nil, rfl⟩
  | cons a A ih =>
    have ha := framed_event a (h a (List.mem_cons_self _ _))
    have hA := ih (fun e he => h e (List.mem_cons_of_mem _ he))
    have := framed_log_append ha hA
    simpa using this

theorem framed_init_setup (cfg : lcd_config) :
    Framed (init_setup_events cfg) ∧ transfer_log (init_setup_events cfg) = [] := by
  apply framed_events
  intro e he
  simp only [init_setup_events, List.mem_cons, List.mem_singleton, List.not_mem_nil,
    or_false] at he
  rcases he with h | h | h | h | h | h | h <;> rw [h] <;> rfl

theorem received_of_lt (v : Nat) (c : Bool) (h : v < 256) :
    Transfer.received ⟨v, c⟩ = ⟨v, c⟩ := by
  simp [Transfer.received, Nat.mod_eq_of_lt h]

theorem spec_function_set_byte_lt (d : lcd_display_config) : spec_function_set_byte d < 256 := by
  rcases d with ⟨c, b, o, t, f⟩
  cases c <;> cases b <;> cases o <;> cases t <;> cases f <;> decide

theorem spec_display_ctrl_byte_lt (d : lcd_display_config) : spec_display_ctrl_byte d < 16 := by
  rcases d with ⟨c, b, o, t, f⟩
  cases c <;> cases b <;> cases o <;> cases t <;> cases f <;> decide

theorem ddram_command_lt (row column : Nat) (hr : row < 2) (hc : column < 16) :
    0x80 ||| ((if row = 0 then 0x00 else 0x40) + column) < 256 := by
  interval_cases row <;> interval_cases column <;> decide

theorem cgram_command_lt (location : Nat) (h : location ≤ 7) :
    0x40 ||| (location <<< 3) < 256 := by
  interval_cases location <;> decide

/-- Every operation appends a framed stretch of events to the trace, and the transfer log
of that stretch is the operation's list of transfers. -/
theorem op_run_events (op : Op) (s : State) :
    ∃ E : List Event, (op.run s).2.trace = s.trace ++ E ∧ Framed E ∧
      transfer_log E = op.transfers := by
  cases op with
  | init config =>
    cases config with
    | none => exact ⟨[], by simp [Op.run, lcd_init], framed_nil, rfl⟩
    | some cfg =>
      refine ⟨init_setup_events cfg ++
        (nibble_events cfg 0x03 ++ [Event.lcd_delay_us 4500] ++
         nibble_events cfg 0x03 ++ [Event.lcd_delay_us 4500] ++
         nibble_events cfg 0x03 ++ [Event.lcd_delay_us 150] ++
         nibble_events cfg 0x02) ++
        log_events cfg [⟨spec_function_set_byte cfg.display, true⟩,
                        ⟨spec_display_ctrl_byte cfg.display, true⟩,
                        ⟨0x01, true⟩] ++
        [Event.lcd_delay_us cfg.timing.clear_delay_us], ?_, ?_⟩
      · simp only [Op.run]
        rw [lcd_init_trace]
        simp only [List.append_assoc]
      · have hl := framed_log_events cfg [⟨spec_function_set_byte cfg.display, true⟩,
          ⟨spec_display_ctrl_byte cfg.display, true⟩, ⟨0x01, true⟩]
        have hm : List.map Transfer.received
            [⟨spec_function_set_byte cfg.display, true⟩,
             ⟨spec_display_ctrl_byte cfg.display, true⟩, ⟨0x01, true⟩]
            = (Op.init (some cfg)).transfers := by
          simp only [List.map, Op.transfers]
          rw [received_of_lt _ _ (spec_function_set_byte_lt _),
            received_of_lt _ _ (Nat.lt_trans (spec_display_ctrl_byte_lt _) (by decide)),
            received_of_lt _ _ (by decide)]
        rw [hm] at hl
        have h := framed_log_append (framed_log_append (framed_log_append (framed_init_setup cfg)
          (framed_log_append (framed_log_append (framed_log_append (framed_log_append
            (framed_log_append (framed_log_append (framed_nibble cfg 0x03) (framed_delay 4500))
              (framed_nibble cfg 0x03)) (framed_delay 4500)) (framed_nibble cfg 0x03))
              (framed_delay 150)) (framed_nibble cfg 0x02))) hl)
          (framed_delay cfg.timing.clear_delay_us)
        simpa using h
  | clear =>
    refine ⟨transfer_events s.current_config ⟨0x01, true⟩ ++
      [Event.lcd_delay_us s.current_config.timing.clear_delay_us], ?_, ?_⟩
    · simp only [Op.run]
      rw [lcd_clear_trace, List.append_assoc]
    · have h := framed_log_append (framed_transfer s.current_config ⟨0x01, true⟩)
        (framed_delay s.current_config.timing.clear_delay_us)
      rw [received_of_lt _ _ (by decide)] at h
      simpa [Op.transfers] using h
  | home =>
    refine ⟨transfer_events s.current_config ⟨0x02, true⟩ ++
      [Event.lcd_delay_us s.current_config.timing.cmd_delay_us], ?_, ?_⟩
    · simp only [Op.run]
      rw [lcd_home_trace, List.append_assoc]
    · have h := framed_log_append (framed_transfer s.current_config ⟨0x02, true⟩)
        (framed_delay s.current_config.timing.cmd_delay_us)
      rw [received_of_lt _ _ (by decide)] at h
      simpa [Op.transfers] using h
  | set_cursor_xy row column =>
    by_cases hv : row < 2 ∧ column < 16
    · refine ⟨transfer_events s.current_config
        ⟨0x80 ||| ((if row = 0 then 0x00 else 0x40) + column), true⟩, ?_, ?_⟩
      · simp only [Op.run]
        rw [lcd_set_cursor_xy_valid row column s hv.1 hv.2]
        exact lcd_write_byte_trace _ _ _
      · have h := framed_transfer s.current_config
          ⟨0x80 ||| ((if row = 0 then 0x00 else 0x40) + column), true⟩
        rw [received_of_lt _ _ (ddram_command_lt row column hv.1 hv.2)] at h
        simpa [Op.transfers, hv] using h
    · refine ⟨[], ?_, framed_nil, ?_⟩
      · simp only [Op.run]
        rw [lcd_set_cursor_xy_invalid row column s hv]
        simp
      · simp [Op.transfers, hv, transfer_log_nil]
  | write_char c =>
    refine ⟨transfer_events s.current_config ⟨c % 256, false⟩, ?_, ?_⟩
    · simp only [Op.run, lcd_write_char]
      exact lcd_write_byte_trace _ _ _
    · have h := framed_transfer s.current_config ⟨c % 256, false⟩
      rw [received_of_lt _ _ (Nat.mod_lt _ (by decide))] at h
      simpa [Op.transfers] using h
  | write_string str =>
    cases str with
    | none => exact ⟨[], by simp [Op.run, lcd_write_string], framed_nil, rfl⟩
    | some str =>
      refine ⟨log_events s.current_config
        ((str.takeWhile (fun c => c ≠ 0)).map (fun c => ⟨c % 256, false⟩)), ?_, ?_⟩
      · simp only [Op.run, lcd_write_string]
        exact lcd_write_string_loop_events str s
      · have h := framed_log_events s.current_config
          ((str.takeWhile (fun c => c ≠ 0)).map (fun c => ⟨c % 256, false⟩))
        refine ⟨h.1, ?_⟩
        rw [h.2]
        simp [Op.transfers, Transfer.received]
  | create_char location pattern =>
    by_cases hv : location > 7 ∨ pattern = none
    · refine ⟨[], ?_, framed_nil, ?_⟩
      · simp only [Op.run]
        rw [lcd_create_char_invalid location pattern s hv]
        simp
      · rcases hv with hv | hv
        · cases pattern with
          | none => rfl
          | some p =>
            have : ¬ location ≤ 7 := by omega
            simp [Op.transfers, this, transfer_log_nil]
        · subst hv
          rfl
    · have hl : location ≤ 7 := by
        by_contra hcon
        exact hv (Or.inl (by omega))
      cases pattern with
      | none => exact absurd (Or.inr rfl) hv
      | some p =>
        refine ⟨log_events s.current_config
          (⟨0x40 ||| (location <<< 3), true⟩ ::
            ((List.range 8).map (fun i => (⟨p i, false⟩ : Transfer)) ++ [⟨0x80, true⟩])), ?_, ?_⟩
        · simp only [Op.run]
          exact (lcd_create_char_valid location p s hl).2.2
        · have h := framed_log_events s.current_config
            (⟨0x40 ||| (location <<< 3), true⟩ ::
              ((List.range 8).map (fun i => (⟨p i, false⟩ : Transfer)) ++ [⟨0x80, true⟩]))
          refine ⟨h.1, ?_⟩
          rw [h.2]
          simp only [List.map_cons, List.map_append, List.map_map, List.map_nil]
          rw [received_of_lt _ _ (cgram_command_lt location hl), received_of_lt _ _ (by decide)]
          simp [Op.transfers, hl, Transfer.received, Function.comp_def]
  | set_display config =>
    cases config with
    | none => exact ⟨[], by simp [Op.run, lcd_set_display], framed_nil, rfl⟩
    | some d =>
      refine ⟨transfer_events s.current_config ⟨spec_display_ctrl_byte d, true⟩, ?_, ?_⟩
      · simp only [Op.run]
        exact lcd_set_display_trace d s
      · have h := framed_transfer s.current_config ⟨spec_display_ctrl_byte d, true⟩
        rw [received_of_lt _ _ (Nat.lt_trans (spec_display_ctrl_byte_lt _) (by decide))] at h
        simpa [Op.transfers] using h

theorem run_ops_log (ops : List Op) (s : State) (h : Framed s.trace) :
    Framed (run_ops ops s).trace ∧
    transfer_log (run_ops ops s).trace = transfer_log s.trace ++ ops.flatMap Op.transfers := by
  induction ops generalizing s with
  | nil => exact ⟨h, by simp [run_ops]⟩
  | cons op ops ih =>
    obtain ⟨E, hE, hF, hL⟩ := op_run_events op s
    have hs := framed_append s.trace E h hF
    rw [← hE] at hs
    have hi := ih (op.run s).2 hs.1
    have hr : run_ops (op :: ops) s = run_ops ops (op.run s).2 := rfl
    rw [hr]
    refine ⟨hi.1, ?_⟩
    rw [hi.2, hs.2, hL, List.flatMap_cons, List.append_assoc]

theorem run_ops_append (ops₁ ops₂ : List Op) (s : State) :
    run_ops (ops₁ ++ ops₂) s = run_ops ops₂ (run_ops ops₁ s) := by
  simp [run_ops, List.foldl_append]

/-- From an empty trace, the transfer log of a sequence of operations is the concatenation of
the operations' transfers. -/
theorem run_ops_log_init (cfg : lcd_config) (ops : List Op) :
    transfer_log (run_ops ops ⟨cfg, []⟩).trace = ops.flatMap Op.transfers := by
  have h := (run_ops_log ops ⟨cfg, []⟩ framed_nil).2
  simpa [transfer_log_nil] using h

/-! ## Addressing mode along a transfer log -/

theorem mode_after_append (m : AddressMode) (A B : List Transfer) :
    mode_after m (A ++ B) = mode_after (mode_after m A) B := by
  simp [mode_after, List.foldl_append]

theorem cgram_data_append (m : AddressMode) (A B : List Transfer) :
    cgram_data m (A ++ B) = cgram_data m A ++ cgram_data (mode_after m A) B := by
  induction A generalizing m with
  | nil => rfl
  | cons t A ih =>
    by_cases h : t.is_cmd = false ∧ m = AddressMode.CGRAM
    · simp [cgram_data, h, ih, mode_after]
    · simp [cgram_data, h, ih, mode_after]

theorem ddram_data_append (m : AddressMode) (A B : List Transfer) :
    ddram_data m (A ++ B) = ddram_data m A ++ ddram_data (mode_after m A) B := by
  induction A generalizing m with
  | nil => rfl
  | cons t A ih =>
    by_cases h : t.is_cmd = false ∧ m = AddressMode.DDRAM
    · simp [ddram_data, h, ih, mode_after]
    · simp [ddram_data, h, ih, mode_after]

/-- A run of data bytes leaves the mode alone; in DDRAM mode all of them are DDRAM data. -/
theorem data_run (f : Nat → Nat) (l : List Nat) (m : AddressMode) :
    mode_after m (l.map (fun c => (⟨f c, false⟩ : Transfer))) = m ∧
    cgram_data AddressMode.DDRAM (l.map (fun c => (⟨f c, false⟩ : Transfer))) = [] ∧
    ddram_data AddressMode.DDRAM (l.map (fun c => (⟨f c, false⟩ : Transfer))) = l.map f ∧
    cgram_data AddressMode.CGRAM (l.map (fun c => (⟨f c, false⟩ : Transfer))) = l.map f := by
  induction l with
  | nil => exact ⟨rfl, rfl, rfl, rfl⟩
  | cons c l ih =>
    obtain ⟨h1, h2, h3, h4⟩ := ih
    refine ⟨?_, ?_, ?_, ?_⟩
    · simpa [mode_after, AddressMode.receive] using h1
    · simpa [cgram_data, AddressMode.receive] using h2
    · simpa [ddram_data, AddressMode.receive] using h3
    · simpa [cgram_data, AddressMode.receive] using h4

theorem function_set_mode (d : lcd_display_config) (m : AddressMode) :
    m.receive ⟨spec_function_set_byte d, true⟩ = m := by
  rcases d with ⟨c, b, o, t, f⟩
  cases m <;> cases c <;> cases b <;> cases o <;> cases t <;> cases f <;> decide

theorem display_ctrl_mode (d : lcd_display_config) (m : AddressMode) :
    m.receive ⟨spec_display_ctrl_byte d, true⟩ = m := by
  rcases d with ⟨c, b, o, t, f⟩
  cases m <;> cases c <;> cases b <;> cases o <;> cases t <;> cases f <;> decide

theorem ddram_command_mode (row column : Nat) (hr : row < 2) (hc : column < 16)
    (m : AddressMode) :
    m.receive ⟨0x80 ||| ((if row = 0 then 0x00 else 0x40) + column), true⟩
      = AddressMode.DDRAM := by
  cases m <;> interval_cases row <;> interval_cases column <;> decide

theorem cgram_command_mode (location : Nat) (h : location ≤ 7) (m : AddressMode) :
    m.receive ⟨0x40 ||| (location <<< 3), true⟩ = AddressMode.CGRAM := by
  cases m <;> interval_cases location <;> decide

/-- Each operation, started in DDRAM mode, ends in DDRAM mode, and the data bytes it sends in
CGRAM mode are its pattern bytes. -/
theorem op_mode (op : Op) :
    mode_after AddressMode.DDRAM op.transfers = AddressMode.DDRAM ∧
    cgram_data AddressMode.DDRAM op.transfers = op.pattern_bytes := by
  cases op with
  | init config =>
    cases config with
    | none => exact ⟨rfl, rfl⟩
    | some cfg =>
      simp [Op.transfers, Op.pattern_bytes, mode_after, cgram_data, function_set_mode,
        display_ctrl_mode, AddressMode.receive, LCD_CMD_CLEAR]
  | clear => simp [Op.transfers, Op.pattern_bytes, mode_after, cgram_data, AddressMode.receive,
      LCD_CMD_CLEAR]
  | home => simp [Op.transfers, Op.pattern_bytes, mode_after, cgram_data, AddressMode.receive,
      LCD_CMD_HOME]
  | set_cursor_xy row column =>
    by_cases hv : row < 2 ∧ column < 16
    · simp [Op.transfers, Op.pattern_bytes, hv, mode_after, cgram_data,
        ddram_command_mode row column hv.1 hv.2]
    · simp [Op.transfers, Op.pattern_bytes, hv, mode_after, cgram_data]
  | write_char c =>
    simp [Op.transfers, Op.pattern_bytes, mode_after, cgram_data, AddressMode.receive]
  | write_string str =>
    cases str with
    | none => exact ⟨rfl, rfl⟩
    | some str =>
      have h := data_run (fun c => c % 256) (str.takeWhile (fun c => c ≠ 0)) AddressMode.DDRAM
      exact ⟨h.1, h.2.1⟩
  | create_char location pattern =>
    cases pattern with
    | none => exact ⟨rfl, rfl⟩
    | some p =>
      by_cases hl : location ≤ 7
      · have hd := data_run (fun i => p i % 256) (List.range 8) AddressMode.CGRAM
        have hc := cgram_command_mode location hl AddressMode.DDRAM
        simp only [Op.transfers, Op.pattern_bytes, hl, if_true]
        refine ⟨?_, ?_⟩
        · rw [show mode_after AddressMode.DDRAM
              (⟨0x40 ||| (location <<< 3), true⟩ ::
                ((List.range 8).map (fun i => (⟨p i % 256, false⟩ : Transfer)) ++ [⟨0x80, true⟩]))
              = mode_after (AddressMode.DDRAM.receive ⟨0x40 ||| (location <<< 3), true⟩)
                ((List.range 8).map (fun i => (⟨p i % 256, false⟩ : Transfer)) ++ [⟨0x80, true⟩])
              from rfl, hc, mode_after_append, hd.1]
          simp [mode_after, AddressMode.receive]
        · rw [show cgram_data AddressMode.DDRAM
              (⟨0x40 ||| (location <<< 3), true⟩ ::
                ((List.range 8).map (fun i => (⟨p i % 256, false⟩ : Transfer)) ++ [⟨0x80, true⟩]))
              = cgram_data (AddressMode.DDRAM.receive ⟨0x40 ||| (location <<< 3), true⟩)
                ((List.range 8).map (fun i => (⟨p i % 256, false⟩ : Transfer)) ++ [⟨0x80, true⟩])
              from by simp [cgram_data], hc, cgram_data_append, hd.1, hd.2.2.2]
          simp [cgram_data]
      · simp [Op.transfers, Op.pattern_bytes, hl, mode_after, cgram_data]
  | set_display config =>
    cases config with
    | none => exact ⟨rfl, rfl⟩
    | some d =>
      simp [Op.transfers, Op.pattern_bytes, mode_after, cgram_data, display_ctrl_mode]

theorem ops_mode (ops : List Op) :
    mode_after AddressMode.DDRAM (ops.flatMap Op.transfers) = AddressMode.DDRAM ∧
    cgram_data AddressMode.DDRAM (ops.flatMap Op.transfers) = ops.flatMap Op.pattern_bytes := by
  induction ops with
  | nil => exact ⟨rfl, rfl⟩
  | cons op ops ih =>
    have h := op_mode op
    rw [List.flatMap_cons, List.flatMap_cons, mode_after_append, cgram_data_append, h.1, h.2,
      ih.1, ih.2]
    exact ⟨rfl, rfl⟩

/-! ## Status codes -/

/-- C11: no public function ever returns `LCD_ERR_BUSY`: for every stored state and every
argument each of the eight functions returns `LCD_SUCCESS` or `LCD_ERR_PARAM` (both different
from `LCD_ERR_BUSY`), and `lcd_clear`, `lcd_home` and `lcd_write_char` (for every character
value) return `LCD_SUCCESS`. -/
theorem no_busy_status (s : State) :
    (∀ config, (lcd_init config s).1 = LCD_SUCCESS ∨ (lcd_init config s).1 = LCD_ERR_PARAM) ∧
    (lcd_clear s).1 = LCD_SUCCESS ∧
    (lcd_home s).1 = LCD_SUCCESS ∧
    (∀ row column, (lcd_set_cursor_xy row column s).1 = LCD_SUCCESS ∨
      (lcd_set_cursor_xy row column s).1 = LCD_ERR_PARAM) ∧
    (∀ c, (lcd_write_char c s).1 = LCD_SUCCESS) ∧
    (∀ str, (lcd_write_string str s).1 = LCD_SUCCESS ∨
      (lcd_write_string str s).1 = LCD_ERR_PARAM) ∧
    (∀ location pattern, (lcd_create_char location pattern s).1 = LCD_SUCCESS ∨
      (lcd_create_char location pattern s).1 = LCD_ERR_PARAM) ∧
    (∀ config, (lcd_set_display config s).1 = LCD_SUCCESS ∨
      (lcd_set_display config s).1 = LCD_ERR_PARAM) ∧
    (∀ op : Op, (op.run s).1 ≠ LCD_ERR_BUSY) ∧
    LCD_SUCCESS ≠ LCD_ERR_BUSY ∧ LCD_ERR_PARAM ≠ LCD_ERR_BUSY := by
  have hinit : ∀ config, (lcd_init config s).1 = LCD_SUCCESS ∨
      (lcd_init config s).1 = LCD_ERR_PARAM := by
    intro config
    cases config with
    | none => exact Or.inr rfl
    | some cfg => exact Or.inl rfl
  have hcur : ∀ row column, (lcd_set_cursor_xy row column s).1 = LCD_SUCCESS ∨
      (lcd_set_cursor_xy row column s).1 = LCD_ERR_PARAM := by
    intro row column
    by_cases hv : row < 2 ∧ column < 16
    · rw [lcd_set_cursor_xy_valid row column s hv.1 hv.2]
      exact Or.inl rfl
    · rw [lcd_set_cursor_xy_invalid row column s hv]
      exact Or.inr rfl
  have hstr : ∀ str, (lcd_write_string str s).1 = LCD_SUCCESS ∨
      (lcd_write_string str s).1 = LCD_ERR_PARAM := by
    intro str
    cases str with
    | none => exact Or.inr rfl
    | some str => exact Or.inl rfl
  have hchr : ∀ location pattern, (lcd_create_char location pattern s).1 = LCD_SUCCESS ∨
      (lcd_create_char location pattern s).1 = LCD_ERR_PARAM := by
    intro location pattern
    by_cases hv : location > 7 ∨ pattern = none
    · rw [lcd_create_char_invalid location pattern s hv]
      exact Or.inr rfl
    · cases pattern with
      | none => exact absurd (Or.inr rfl) hv
      | some p =>
        have hl : location ≤ 7 := by
          by_contra hcon
          exact hv (Or.inl (by omega))
        exact Or.inl (lcd_create_char_valid location p s hl).1
  have hdis : ∀ config, (lcd_set_display config s).1 = LCD_SUCCESS ∨
      (lcd_set_display config s).1 = LCD_ERR_PARAM := by
    intro config
    cases config with
    | none => exact Or.inr rfl
    | some d => exact Or.inl rfl
  have hs : LCD_SUCCESS ≠ LCD_ERR_BUSY := by decide
  have hp : LCD_ERR_PARAM ≠ LCD_ERR_BUSY := by decide
  have hor : ∀ x : Int, x = LCD_SUCCESS ∨ x = LCD_ERR_PARAM → x ≠ LCD_ERR_BUSY := by
    intro x hx
    rcases hx with hx | hx
    · rw [hx]; exact hs
    · rw [hx]; exact hp
  refine ⟨hinit, rfl, rfl, hcur, fun _ => rfl, hstr, hchr, hdis, ?_, hs, hp⟩
  intro op
  cases op with
  | init config => exact hor _ (hinit config)
  | clear => exact hor _ (Or.inl rfl)
  | home => exact hor _ (Or.inl rfl)
  | set_cursor_xy row column => exact hor _ (hcur row column)
  | write_char c => exact hor _ (Or.inl rfl)
  | write_string str => exact hor _ (hstr str)
  | create_char location pattern => exact hor _ (hchr location pattern)
  | set_display config => exact hor _ (hdis config)

/-! ## `lcd_clear` and `lcd_home` -/

/-- C12: for every stored configuration `lcd_clear` returns `LCD_SUCCESS`, keeps the
configuration, and emits exactly the events of one command transfer of value `0x01`
(register select driven low first, then the nibbles `0x0` and `0x1`, then the command delay)
followed by one delay of the stored `clear_delay_us`, and nothing after it; read back from
the pins, the transfer log of the call is the single command `0x01`. -/
theorem lcd_clear_events (s : State) :
    (lcd_clear s).1 = LCD_SUCCESS ∧
    (lcd_clear s).2.current_config = s.current_config ∧
    (lcd_clear s).2.trace = s.trace ++
      (transfer_events s.current_config ⟨0x01, true⟩ ++
        [Event.lcd_delay_us s.current_config.timing.clear_delay_us]) ∧
    transfer_events s.current_config ⟨0x01, true⟩ =
      Event.HAL_GPIO_WritePin s.current_config.pins.rs.port s.current_config.pins.rs.pin
          GPIO_PinState.GPIO_PIN_RESET ::
        (nibble_events s.current_config 0x0 ++ nibble_events s.current_config 0x1 ++
          [Event.lcd_delay_us s.current_config.timing.cmd_delay_us]) ∧
    transfer_log (transfer_events s.current_config ⟨0x01, true⟩ ++
        [Event.lcd_delay_us s.current_config.timing.clear_delay_us]) = [⟨0x01, true⟩] := by
  refine ⟨rfl, lcd_clear_config s, ?_, ?_, ?_⟩
  · rw [lcd_clear_trace, List.append_assoc]
  · rw [transfer_events_eq]
    rfl
  · have h := framed_log_append (framed_transfer s.current_config ⟨0x01, true⟩)
      (framed_delay s.current_config.timing.clear_delay_us)
    rw [received_of_lt _ _ (by decide)] at h
    simpa using h.2

/-- C13: for every stored configuration `lcd_home` returns `LCD_SUCCESS`, keeps the
configuration, and emits exactly the events of one command transfer of value `0x02`
(register select driven low first, then the nibbles `0x0` and `0x2`, then the command delay)
followed by one more delay of the stored `cmd_delay_us`; read back from the pins, the
transfer log of the call is the single command `0x02`. -/
theorem lcd_home_events (s : State) :
    (lcd_home s).1 = LCD_SUCCESS ∧
    (lcd_home s).2.current_config = s.current_config ∧
    (lcd_home s).2.trace = s.trace ++
      (transfer_events s.current_config ⟨0x02, true⟩ ++
        [Event.lcd_delay_us s.current_config.timing.cmd_delay_us]) ∧
    transfer_events s.current_config ⟨0x02, true⟩ =
      Event.HAL_GPIO_WritePin s.current_config.pins.rs.port s.current_config.pins.rs.pin
          GPIO_PinState.GPIO_PIN_RESET ::
        (nibble_events s.current_config 0x0 ++ nibble_events s.current_config 0x2 ++
          [Event.lcd_delay_us s.current_config.timing.cmd_delay_us]) ∧
    transfer_log (transfer_events s.current_config ⟨0x02, true⟩ ++
        [Event.lcd_delay_us s.current_config.timing.cmd_delay_us]) = [⟨0x02, true⟩] := by
  refine ⟨rfl, lcd_home_config s, ?_, ?_, ?_⟩
  · rw [lcd_home_trace, List.append_assoc]
  · rw [transfer_events_eq]
    rfl
  · have h := framed_log_append (framed_transfer s.current_config ⟨0x02, true⟩)
      (framed_delay s.current_config.timing.cmd_delay_us)
    rw [received_of_lt _ _ (by decide)] at h
    simpa using h.2

/-! ## End-to-end scenario -/

theorem hi_lo_scenario_run_ops (cfg : lcd_config) (s : State) :
    (hi_lo_scenario cfg s).2 = run_ops
      [Op.init (some cfg), Op.write_string (some [0x48, 0x49]), Op.set_cursor_xy 1 0,
       Op.write_string (some [0x4C, 0x4F])] s := rfl

/-- C14: for a configuration with `two_lines` and `display_on` set, the calls `lcd_init`,
`lcd_write_string("HI")`, `lcd_set_cursor_xy(1,0)`, `lcd_write_string("LO")` all return
`LCD_SUCCESS`; what they emit after the events of `lcd_init` is exactly the events of the
transfers data `0x48`, data `0x49`, command `0xC0`, data `0x4C`, data `0x4F`; the transfer
log read back from the whole pin trace is init's three commands followed by these five; and
replaying that log on the reference controller, from any controller state, leaves
`0x48, 0x49` at DDRAM addresses `0x00, 0x01` and `0x4C, 0x4F` at `0x40, 0x41`. -/
theorem hi_lo_scenario_ddram (cfg cfg₀ : lcd_config) (c : Controller)
    (h2 : cfg.display.two_lines = true) (hon : cfg.display.display_on = true) :
    (hi_lo_scenario cfg ⟨cfg₀, []⟩).1 = [LCD_SUCCESS, LCD_SUCCESS, LCD_SUCCESS, LCD_SUCCESS] ∧
    (hi_lo_scenario cfg ⟨cfg₀, []⟩).2.trace = (lcd_init (some cfg) ⟨cfg₀, []⟩).2.trace ++
      log_events cfg
        [⟨0x48, false⟩, ⟨0x49, false⟩, ⟨0xC0, true⟩, ⟨0x4C, false⟩, ⟨0x4F, false⟩] ∧
    transfer_log (lcd_init (some cfg) ⟨cfg₀, []⟩).2.trace =
      [⟨0x28 ||| (if cfg.display.big_font then 0x04 else 0x00), true⟩,
       ⟨0x0C ||| (if cfg.display.cursor_on then 0x02 else 0x00)
          ||| (if cfg.display.cursor_blink then 0x01 else 0x00), true⟩,
       ⟨0x01, true⟩] ∧
    transfer_log (hi_lo_scenario cfg ⟨cfg₀, []⟩).2.trace =
      transfer_log (lcd_init (some cfg) ⟨cfg₀, []⟩).2.trace ++
        [⟨0x48, false⟩, ⟨0x49, false⟩, ⟨0xC0, true⟩, ⟨0x4C, false⟩, ⟨0x4F, false⟩] ∧
    (c.replay (transfer_log (hi_lo_scenario cfg ⟨cfg₀, []⟩).2.trace)).ddram 0x00 = 0x48 ∧
    (c.replay (transfer_log (hi_lo_scenario cfg ⟨cfg₀, []⟩).2.trace)).ddram 0x01 = 0x49 ∧
    (c.replay (transfer_log (hi_lo_scenario cfg ⟨cfg₀, []⟩).2.trace)).ddram 0x40 = 0x4C ∧
    (c.replay (transfer_log (hi_lo_scenario cfg ⟨cfg₀, []⟩).2.trace)).ddram 0x41 = 0x4F := by
  have hf : spec_function_set_byte cfg.display
      = 0x28 ||| (if cfg.display.big_font then 0x04 else 0x00) := by
    unfold spec_function_set_byte
    rw [h2]
    cases cfg.display.big_font <;> decide
  have hd : spec_display_ctrl_byte cfg.display
      = 0x0C ||| (if cfg.display.cursor_on then 0x02 else 0x00)
          ||| (if cfg.display.cursor_blink then 0x01 else 0x00) := by
    unfold spec_display_ctrl_byte
    rw [hon]
    cases cfg.display.cursor_on <;> cases cfg.display.cursor_blink <;> decide
  have hinit : transfer_log (lcd_init (some cfg) ⟨cfg₀, []⟩).2.trace =
      [⟨0x28 ||| (if cfg.display.big_font then 0x04 else 0x00), true⟩,
       ⟨0x0C ||| (if cfg.display.cursor_on then 0x02 else 0x00)
          ||| (if cfg.display.cursor_blink then 0x01 else 0x00), true⟩,
       ⟨0x01, true⟩] := by
    have h := run_ops_log_init cfg₀ [Op.init (some cfg)]
    simp only [List.flatMap_cons, List.flatMap_nil, List.append_nil, Op.transfers] at h
    rw [hf, hd] at h
    exact h
  have hall : transfer_log (hi_lo_scenario cfg ⟨cfg₀, []⟩).2.trace =
      transfer_log (lcd_init (some cfg) ⟨cfg₀, []⟩).2.trace ++
        [⟨0x48, false⟩, ⟨0x49, false⟩, ⟨0xC0, true⟩, ⟨0x4C, false⟩, ⟨0x4F, false⟩] := by
    rw [hi_lo_scenario_run_ops, run_ops_log_init, hinit]
    simp only [List.flatMap_cons, List.flatMap_nil, List.append_nil, Op.transfers]
    rw [hf, hd]
    exact congrArg _ (by decide)
  have htrace : (hi_lo_scenario cfg ⟨cfg₀, []⟩).2.trace
      = (lcd_init (some cfg) ⟨cfg₀, []⟩).2.trace ++ log_events cfg
        [⟨0x48, false⟩, ⟨0x49, false⟩, ⟨0xC0, true⟩, ⟨0x4C, false⟩, ⟨0x4F, false⟩] := by
    have hc := lcd_init_config cfg ⟨cfg₀, []⟩
    simp only [hi_lo_scenario, lcd_write_string]
    rw [lcd_write_string_loop_events, lcd_set_cursor_xy_valid 1 0 _ (by decide) (by decide)]
    simp only []
    rw [lcd_write_byte_trace, lcd_write_string_loop_events, lcd_write_byte_config,
      lcd_write_string_loop_config, hc]
    simp only [List.append_assoc, ← log_events_singleton, ← log_events_append]
    rfl
  refine ⟨?_, htrace, hinit, hall, ?_, ?_, ?_, ?_⟩
  · simp only [hi_lo_scenario, lcd_write_string]
    rw [lcd_set_cursor_xy_valid 1 0 _ (by decide) (by decide)]
    rfl
  all_goals
    rw [hall, hinit]
    have e1 : 192 &&& 127 = 64 := by decide
    cases cfg.display.big_font <;> cases cfg.display.cursor_on <;>
      cases cfg.display.cursor_blink <;>
      simp [Controller.replay, Controller.receive, LCD_CMD_CLEAR, LCD_CMD_DDRAM_ADDR,
        Function.update_apply, e1]

/-- Witness for C14: the configuration of `examples/basic_display.c`, whose `lcd_init` sends
`0x28`, `0x0C`, `0x01`. -/
theorem hi_lo_scenario_ddram_witness :
    (basic_display.config.display.two_lines = true ∧
      basic_display.config.display.display_on = true) ∧
    transfer_log (hi_lo_scenario basic_display.config ⟨basic_display.config, []⟩).2.trace =
      [⟨0x28, true⟩, ⟨0x0C, true⟩, ⟨0x01, true⟩,
       ⟨0x48, false⟩, ⟨0x49, false⟩, ⟨0xC0, true⟩, ⟨0x4C, false⟩, ⟨0x4F, false⟩] :=
  ⟨by decide,
   by
    have h := hi_lo_scenario_ddram basic_display.config basic_display.config
      ⟨0, fun _ => 0x20⟩ (by decide) (by decide)
    rw [h.2.2.2.1, h.2.2.1]
    decide⟩

/-! ## Idempotence of `lcd_clear` -/

/-- C15: `lcd_clear` is idempotent in what can be observed: for every stored configuration
it leaves the configuration unchanged, two successive calls both return `LCD_SUCCESS` and
emit the same events (one command transfer `0x01` and the clear delay), and on the reference
controller, from any controller state, the DDRAM address is 0 after the log of the first call
and 0 again after the log of the second. -/
theorem lcd_clear_idempotent (s : State) (c : Controller) :
    (lcd_clear s).2.current_config = s.current_config ∧
    (lcd_clear (lcd_clear s).2).2.current_config = s.current_config ∧
    (lcd_clear s).1 = LCD_SUCCESS ∧
    (lcd_clear (lcd_clear s).2).1 = LCD_SUCCESS ∧
    (lcd_clear s).2.trace = s.trace ++
      (transfer_events s.current_config ⟨0x01, true⟩ ++
        [Event.lcd_delay_us s.current_config.timing.clear_delay_us]) ∧
    (lcd_clear (lcd_clear s).2).2.trace = (lcd_clear s).2.trace ++
      (transfer_events s.current_config ⟨0x01, true⟩ ++
        [Event.lcd_delay_us s.current_config.timing.clear_delay_us]) ∧
    transfer_log (transfer_events s.current_config ⟨0x01, true⟩ ++
        [Event.lcd_delay_us s.current_config.timing.clear_delay_us]) = [⟨0x01, true⟩] ∧
    (c.replay [⟨0x01, true⟩]).address = 0 ∧
    ((c.replay [⟨0x01, true⟩]).replay [⟨0x01, true⟩]).address = 0 ∧
    (c.replay [⟨0x01, true⟩]).replay [⟨0x01, true⟩] = c.replay [⟨0x01, true⟩] := by
  have hc := lcd_clear_config s
  have hlog : transfer_log (transfer_events s.current_config ⟨0x01, true⟩ ++
      [Event.lcd_delay_us s.current_config.timing.clear_delay_us]) = [⟨0x01, true⟩] := by
    have h := framed_log_append (framed_transfer s.current_config ⟨0x01, true⟩)
      (framed_delay s.current_config.timing.clear_delay_us)
    rw [received_of_lt _ _ (by decide)] at h
    simpa using h.2
  refine ⟨hc, ?_, rfl, rfl, ?_, ?_, hlog, rfl, rfl, rfl⟩
  · rw [lcd_clear_config, hc]
  · rw [lcd_clear_trace, List.append_assoc]
  · rw [lcd_clear_trace (lcd_clear s).2, hc, List.append_assoc]

/-! ## The addressing-mode invariant -/

/-- C16: reading the controller's addressing mode off the byte-level transfer log, for every
finite sequence of public operations with arbitrary arguments, started in DDRAM mode with an
empty trace: the mode is DDRAM at the end of every operation; a character written next by
`lcd_write_char`, and the characters written next by `lcd_write_string`, arrive as DDRAM data
and add nothing to the data received in CGRAM mode; and the data bytes received in CGRAM mode
over the whole sequence are exactly the pattern bytes of its operations, where only a
successful `lcd_create_char` has pattern bytes, namely its eight bytes `p[0] .. p[7]`. -/
theorem ddram_mode_invariant (cfg : lcd_config) (ops : List Op) :
    (∀ k : Nat,
      mode_after AddressMode.DDRAM (transfer_log (run_ops (ops.take k) ⟨cfg, []⟩).trace)
        = AddressMode.DDRAM) ∧
    (∀ c : Nat,
      ddram_data AddressMode.DDRAM
          (transfer_log (run_ops (ops ++ [Op.write_char c]) ⟨cfg, []⟩).trace)
        = ddram_data AddressMode.DDRAM (transfer_log (run_ops ops ⟨cfg, []⟩).trace)
            ++ [c % 256] ∧
      cgram_data AddressMode.DDRAM
          (transfer_log (run_ops (ops ++ [Op.write_char c]) ⟨cfg, []⟩).trace)
        = cgram_data AddressMode.DDRAM (transfer_log (run_ops ops ⟨cfg, []⟩).trace)) ∧
    (∀ str : List Nat,
      ddram_data AddressMode.DDRAM
          (transfer_log (run_ops (ops ++ [Op.write_string (some str)]) ⟨cfg, []⟩).trace)
        = ddram_data AddressMode.DDRAM (transfer_log (run_ops ops ⟨cfg, []⟩).trace)
            ++ (str.takeWhile (fun c => c ≠ 0)).map (fun c => c % 256) ∧
      cgram_data AddressMode.DDRAM
          (transfer_log (run_ops (ops ++ [Op.write_string (some str)]) ⟨cfg, []⟩).trace)
        = cgram_data AddressMode.DDRAM (transfer_log (run_ops ops ⟨cfg, []⟩).trace)) ∧
    cgram_data AddressMode.DDRAM (transfer_log (run_ops ops ⟨cfg, []⟩).trace)
      = ops.flatMap Op.pattern_bytes ∧
    (∀ op : Op, op.pattern_bytes = [] ∨
      ∃ location pattern, op = Op.create_char location (some pattern) ∧
        (∀ s, (op.run s).1 = LCD_SUCCESS) ∧
        op.pattern_bytes =
          [pattern 0 % 256, pattern 1 % 256, pattern 2 % 256, pattern 3 % 256,
           pattern 4 % 256, pattern 5 % 256, pattern 6 % 256, pattern 7 % 256]) := by
  refine ⟨?_, ?_, ?_, ?_, ?_⟩
  · intro k
    rw [run_ops_log_init]
    exact (ops_mode _).1
  · intro c
    rw [run_ops_log_init, run_ops_log_init, List.flatMap_append, ddram_data_append,
      cgram_data_append, (ops_mode ops).1]
    simp [Op.transfers, ddram_data, cgram_data]
  · intro str
    have h := data_run (fun c => c % 256) (str.takeWhile (fun c => c ≠ 0)) AddressMode.DDRAM
    rw [run_ops_log_init, run_ops_log_init, List.flatMap_append, ddram_data_append,
      cgram_data_append, (ops_mode ops).1]
    simp only [List.flatMap_cons, List.flatMap_nil, List.append_nil, Op.transfers]
    rw [h.2.1, h.2.2.1, List.append_nil]
    exact ⟨rfl, rfl⟩
  · rw [run_ops_log_init]
    exact (ops_mode ops).2
  · intro op
    cases op with
    | create_char location pattern =>
      cases pattern with
      | none => exact Or.inl rfl
      | some p =>
        by_cases hl : location ≤ 7
        · refine Or.inr ⟨location, p, rfl, ?_, ?_⟩
          · intro s
            exact (lcd_create_char_valid location p s hl).1
          · simp [Op.pattern_bytes, hl, List.range, List.range.loop]
        · exact Or.inl (by simp [Op.pattern_bytes, hl])
    | init config => exact Or.inl rfl
    | clear => exact Or.inl rfl
    | home => exact Or.inl rfl
    | set_cursor_xy row column => exact Or.inl rfl
    | write_char c => exact Or.inl rfl
    | write_string str => exact Or.inl rfl
    | set_display config => exact Or.inl rfl

/-! ## The byte and nibble layers -/

/-- The level `lcd_write_4bits` drives on data line `i` is bit `i` of its argument. -/
theorem data_level_testBit (v i : Nat) :
    (if (v >>> i) &&& 0x01 ≠ 0 then GPIO_PinState.GPIO_PIN_SET
      else GPIO_PinState.GPIO_PIN_RESET)
    = (if v.testBit i then GPIO_PinState.GPIO_PIN_SET else GPIO_PinState.GPIO_PIN_RESET) := by
  unfold Nat.testBit
  rw [Nat.and_comm 1 (v >>> i)]
  by_cases h : (v >>> i) &&& 1 = 0
  · simp [h]
  · simp [h]

theorem testBit_low_nibble (v i : Nat) (hi : i < 4) : (v &&& 0x0F).testBit i = v.testBit i := by
  rw [Nat.testBit_and]
  have h : (0x0F : Nat).testBit i = true := by
    interval_cases i <;> decide
  rw [h, Bool.and_true]

/-- The events of a nibble write, with the levels as bits of the argument. -/
theorem nibble_events_testBit (cfg : lcd_config) (v : Nat) :
    nibble_events cfg v =
      [Event.HAL_GPIO_WritePin cfg.pins.data0.port cfg.pins.data0.pin
         (if v.testBit 0 then GPIO_PinState.GPIO_PIN_SET else GPIO_PinState.GPIO_PIN_RESET),
       Event.HAL_GPIO_WritePin cfg.pins.data1.port cfg.pins.data1.pin
         (if v.testBit 1 then GPIO_PinState.GPIO_PIN_SET else GPIO_PinState.GPIO_PIN_RESET),
       Event.HAL_GPIO_WritePin cfg.pins.data2.port cfg.pins.data2.pin
         (if v.testBit 2 then GPIO_PinState.GPIO_PIN_SET else GPIO_PinState.GPIO_PIN_RESET),
       Event.HAL_GPIO_WritePin cfg.pins.data3.port cfg.pins.data3.pin
         (if v.testBit 3 then GPIO_PinState.GPIO_PIN_SET else GPIO_PinState.GPIO_PIN_RESET),
       Event.HAL_GPIO_WritePin cfg.pins.en.port cfg.pins.en.pin GPIO_PinState.GPIO_PIN_RESET,
       Event.lcd_delay_us 1,
       Event.HAL_GPIO_WritePin cfg.pins.en.port cfg.pins.en.pin GPIO_PinState.GPIO_PIN_SET,
       Event.lcd_delay_us cfg.timing.enable_pulse_us,
       Event.HAL_GPIO_WritePin cfg.pins.en.port cfg.pins.en.pin GPIO_PinState.GPIO_PIN_RESET] := by
  rw [nibble_events_eq, data_level_testBit, data_level_testBit, data_level_testBit,
    data_level_testBit]

theorem nibble_events_low_nibble (cfg : lcd_config) (v : Nat) :
    nibble_events cfg (v &&& 0x0F) = nibble_events cfg v := by
  rw [nibble_events_testBit, nibble_events_testBit, testBit_low_nibble v 0 (by decide),
    testBit_low_nibble v 1 (by decide), testBit_low_nibble v 2 (by decide),
    testBit_low_nibble v 3 (by decide)]

/-- A nibble write touches only the data lines and the enable line. -/
theorem nibble_events_other_pin (cfg : lcd_config) (v : Nat) (g : lcd_gpio_config)
    (h0 : g ≠ cfg.pins.data0) (h1 : g ≠ cfg.pins.data1) (h2 : g ≠ cfg.pins.data2)
    (h3 : g ≠ cfg.pins.data3) (he : g ≠ cfg.pins.en) :
    ∀ e ∈ nibble_events cfg v, ∀ state, e ≠ Event.HAL_GPIO_WritePin g.port g.pin state := by
  have key : ∀ (g' : lcd_gpio_config) (st st' : GPIO_PinState), g ≠ g' →
      Event.HAL_GPIO_WritePin g'.port g'.pin st ≠ Event.HAL_GPIO_WritePin g.port g.pin st' := by
    intro g' st st' hne heq
    injection heq with hp hq _
    apply hne
    cases g
    cases g'
    simp only [lcd_gpio_config.mk.injEq]
    exact ⟨hp.symm, hq.symm⟩
  intro e hmem state
  rw [nibble_events_eq] at hmem
  simp only [List.mem_cons, List.mem_singleton, List.not_mem_nil, or_false] at hmem
  rcases hmem with h | h | h | h | h | h | h | h | h
  · rw [h]; exact key _ _ _ h0
  · rw [h]; exact key _ _ _ h1
  · rw [h]; exact key _ _ _ h2
  · rw [h]; exact key _ _ _ h3
  · rw [h]; exact key _ _ _ he
  · rw [h]; exact fun hc => Event.noConfusion hc
  · rw [h]; exact key _ _ _ he
  · rw [h]; exact fun hc => Event.noConfusion hc
  · rw [h]; exact key _ _ _ he

/-- C17: for every byte `v` in 0..255 and every flag `is_cmd`, `lcd_write_byte(v, is_cmd)`
keeps the configuration and emits exactly: one write of the register-select pin (low for a
command, high otherwise), the events of `lcd_write_4bits(v >> 4)`, the events of
`lcd_write_4bits(v & 0x0F)`, and one delay of the stored `cmd_delay_us`. The two nibbles are
below 16 and recombine to `v`, and reading the transfer back from the pin levels gives `v`
and `is_cmd`. Of the fifteen pin writes only the first is made through the register-select
line: the later events are those of the two nibble writes and the delay, they stay the same
whichever pin is assigned to register select, and whenever the register-select line is a pin
of its own, none of them writes it. -/
theorem lcd_write_byte_events (v : Nat) (is_cmd : Bool) (s : State) (hv : v < 256) :
    (lcd_write_byte v is_cmd s).current_config = s.current_config ∧
    (lcd_write_byte v is_cmd s).trace = s.trace ++
      (Event.HAL_GPIO_WritePin s.current_config.pins.rs.port s.current_config.pins.rs.pin
          (if is_cmd then GPIO_PinState.GPIO_PIN_RESET else GPIO_PinState.GPIO_PIN_SET) ::
        ((lcd_write_4bits (v >>> 4) ⟨s.current_config, []⟩).trace ++
         (lcd_write_4bits (v &&& 0x0F) ⟨s.current_config, []⟩).trace ++
         [Event.lcd_delay_us s.current_config.timing.cmd_delay_us])) ∧
    v >>> 4 < 16 ∧ v &&& 0x0F < 16 ∧ 16 * (v >>> 4) + (v &&& 0x0F) = v ∧
    transfer_log (Event.HAL_GPIO_WritePin s.current_config.pins.rs.port
          s.current_config.pins.rs.pin
          (if is_cmd then GPIO_PinState.GPIO_PIN_RESET else GPIO_PinState.GPIO_PIN_SET) ::
        ((lcd_write_4bits (v >>> 4) ⟨s.current_config, []⟩).trace ++
         (lcd_write_4bits (v &&& 0x0F) ⟨s.current_config, []⟩).trace ++
         [Event.lcd_delay_us s.current_config.timing.cmd_delay_us])) = [⟨v, is_cmd⟩] ∧
    (((lcd_write_4bits (v >>> 4) ⟨s.current_config, []⟩).trace ++
         (lcd_write_4bits (v &&& 0x0F) ⟨s.current_config, []⟩).trace ++
         [Event.lcd_delay_us s.current_config.timing.cmd_delay_us]).filter
        (fun e => is_pin_write e)).length = 14 ∧
    (∀ g : lcd_gpio_config,
      (lcd_write_4bits (v >>> 4)
          ⟨{ s.current_config with pins := { s.current_config.pins with rs := g } }, []⟩).trace ++
        (lcd_write_4bits (v &&& 0x0F)
          ⟨{ s.current_config with pins := { s.current_config.pins with rs := g } }, []⟩).trace ++
        [Event.lcd_delay_us s.current_config.timing.cmd_delay_us]
      = (lcd_write_4bits (v >>> 4) ⟨s.current_config, []⟩).trace ++
        (lcd_write_4bits (v &&& 0x0F) ⟨s.current_config, []⟩).trace ++
        [Event.lcd_delay_us s.current_config.timing.cmd_delay_us]) ∧
    (s.current_config.pins.rs ≠ s.current_config.pins.data0 →
     s.current_config.pins.rs ≠ s.current_config.pins.data1 →
     s.current_config.pins.rs ≠ s.current_config.pins.data2 →
     s.current_config.pins.rs ≠ s.current_config.pins.data3 →
     s.current_config.pins.rs ≠ s.current_config.pins.en →
     ∀ e ∈ (lcd_write_4bits (v >>> 4) ⟨s.current_config, []⟩).trace ++
         (lcd_write_4bits (v &&& 0x0F) ⟨s.current_config, []⟩).trace ++
         [Event.lcd_delay_us s.current_config.timing.cmd_delay_us],
       ∀ state, e ≠ Event.HAL_GPIO_WritePin s.current_config.pins.rs.port
         s.current_config.pins.rs.pin state) := by
  have hlow : v &&& 0x0F = v % 16 := Nat.and_pow_two_sub_one_eq_mod v 4
  have hhigh : v >>> 4 = v / 16 := by
    rw [Nat.shiftRight_eq_div_pow]
  have hte := transfer_events_eq s.current_config ⟨v, is_cmd⟩
  simp only [] at hte
  change (lcd_write_byte v is_cmd s).current_config = s.current_config ∧
    (lcd_write_byte v is_cmd s).trace = s.trace ++
      (Event.HAL_GPIO_WritePin s.current_config.pins.rs.port s.current_config.pins.rs.pin
          (if is_cmd then GPIO_PinState.GPIO_PIN_RESET else GPIO_PinState.GPIO_PIN_SET) ::
        (nibble_events s.current_config (v >>> 4) ++ nibble_events s.current_config (v &&& 0x0F)
          ++ [Event.lcd_delay_us s.current_config.timing.cmd_delay_us])) ∧
    v >>> 4 < 16 ∧ v &&& 0x0F < 16 ∧ 16 * (v >>> 4) + (v &&& 0x0F) = v ∧
    transfer_log (Event.HAL_GPIO_WritePin s.current_config.pins.rs.port
          s.current_config.pins.rs.pin
          (if is_cmd then GPIO_PinState.GPIO_PIN_RESET else GPIO_PinState.GPIO_PIN_SET) ::
        (nibble_events s.current_config (v >>> 4) ++ nibble_events s.current_config (v &&& 0x0F)
          ++ [Event.lcd_delay_us s.current_config.timing.cmd_delay_us])) = [⟨v, is_cmd⟩] ∧
    ((nibble_events s.current_config (v >>> 4) ++ nibble_events s.current_config (v &&& 0x0F)
          ++ [Event.lcd_delay_us s.current_config.timing.cmd_delay_us]).filter
        (fun e => is_pin_write e)).length = 14 ∧
    (∀ g : lcd_gpio_config,
      nibble_events { s.current_config with pins := { s.current_config.pins with rs := g } }
          (v >>> 4) ++
        nibble_events { s.current_config with pins := { s.current_config.pins with rs := g } }
          (v &&& 0x0F) ++
        [Event.lcd_delay_us s.current_config.timing.cmd_delay_us]
      = nibble_events s.current_config (v >>> 4) ++
        nibble_events s.current_config (v &&& 0x0F) ++
        [Event.lcd_delay_us s.current_config.timing.cmd_delay_us]) ∧
    (s.current_config.pins.rs ≠ s.current_config.pins.data0 →
     s.current_config.pins.rs ≠ s.current_config.pins.data1 →
     s.current_config.pins.rs ≠ s.current_config.pins.data2 →
     s.current_config.pins.rs ≠ s.current_config.pins.data3 →
     s.current_config.pins.rs ≠ s.current_config.pins.en →
     ∀ e ∈ nibble_events s.current_config (v >>> 4) ++
         nibble_events s.current_config (v &&& 0x0F) ++
         [Event.lcd_delay_us s.current_config.timing.cmd_delay_us],
       ∀ state, e ≠ Event.HAL_GPIO_WritePin s.current_config.pins.rs.port
         s.current_config.pins.rs.pin state)
  refine ⟨lcd_write_byte_config v is_cmd s, ?_, by omega, by omega, by omega, ?_, ?_, ?_, ?_⟩
  · rw [lcd_write_byte_trace, hte]
  · rw [← hte, (framed_transfer s.current_config ⟨v, is_cmd⟩).2, received_of_lt v is_cmd hv]
  · simp [nibble_events_eq, is_pin_write]
  · intro g
    rw [nibble_events_eq, nibble_events_eq, nibble_events_eq, nibble_events_eq]
  · intro h0 h1 h2 h3 he e hmem state
    simp only [List.mem_append, List.mem_singleton] at hmem
    rcases hmem with (hm | hm) | hm
    · exact nibble_events_other_pin _ _ _ h0 h1 h2 h3 he e hm state
    · exact nibble_events_other_pin _ _ _ h0 h1 h2 h3 he e hm state
    · rw [hm]
      exact fun hc => Event.noConfusion hc

/-- Witness for C17: the byte `0xC5` sent as a command under the configuration of
`examples/basic_display.c`. -/
theorem lcd_write_byte_events_witness :
    (0xC5 < 256) ∧ (0xC5 >>> 4 = 0xC ∧ 0xC5 &&& 0x0F = 0x5) ∧
    16 * (0xC5 >>> 4) + (0xC5 &&& 0x0F) = 0xC5 :=
  ⟨by decide, by decide,
   (lcd_write_byte_events 0xC5 true ⟨basic_display.config, []⟩ (by decide)).2.2.2.2.1⟩

/-- C18: for every value `v`, `lcd_write_4bits(v)` keeps the configuration and emits exactly:
for `i = 0, 1, 2, 3` in that order a write of data line `i` with level bit `i` of `v`, then
enable low, a delay of 1 microsecond, enable high, a delay of the stored `enable_pulse_us`,
enable low. The result depends only on the low nibble of `v` (it is that of
`lcd_write_4bits(v & 0x0F)`), and the last event drives the enable line low. -/
theorem lcd_write_4bits_events (v : Nat) (s : State) :
    (lcd_write_4bits v s).current_config = s.current_config ∧
    (lcd_write_4bits v s).trace = s.trace ++
      [Event.HAL_GPIO_WritePin s.current_config.pins.data0.port s.current_config.pins.data0.pin
         (if v.testBit 0 then GPIO_PinState.GPIO_PIN_SET else GPIO_PinState.GPIO_PIN_RESET),
       Event.HAL_GPIO_WritePin s.current_config.pins.data1.port s.current_config.pins.data1.pin
         (if v.testBit 1 then GPIO_PinState.GPIO_PIN_SET else GPIO_PinState.GPIO_PIN_RESET),
       Event.HAL_GPIO_WritePin s.current_config.pins.data2.port s.current_config.pins.data2.pin
         (if v.testBit 2 then GPIO_PinState.GPIO_PIN_SET else GPIO_PinState.GPIO_PIN_RESET),
       Event.HAL_GPIO_WritePin s.current_config.pins.data3.port s.current_config.pins.data3.pin
         (if v.testBit 3 then GPIO_PinState.GPIO_PIN_SET else GPIO_PinState.GPIO_PIN_RESET),
       Event.HAL_GPIO_WritePin s.current_config.pins.en.port s.current_config.pins.en.pin
         GPIO_PinState.GPIO_PIN_RESET,
       Event.lcd_delay_us 1,
       Event.HAL_GPIO_WritePin s.current_config.pins.en.port s.current_config.pins.en.pin
         GPIO_PinState.GPIO_PIN_SET,
       Event.lcd_delay_us s.current_config.timing.enable_pulse_us,
       Event.HAL_GPIO_WritePin s.current_config.pins.en.port s.current_config.pins.en.pin
         GPIO_PinState.GPIO_PIN_RESET] ∧
    lcd_write_4bits (v &&& 0x0F) s = lcd_write_4bits v s ∧
    (lcd_write_4bits v s).trace.getLast? =
      some (Event.HAL_GPIO_WritePin s.current_config.pins.en.port s.current_config.pins.en.pin
        GPIO_PinState.GPIO_PIN_RESET) := by
  have ht : (lcd_write_4bits v s).trace = s.trace ++ _ :=
    (lcd_write_4bits_trace v s).trans (congrArg _ (nibble_events_testBit s.current_config v))
  refine ⟨lcd_write_4bits_config v s, ht, ?_, ?_⟩
  · have hc : (lcd_write_4bits (v &&& 0x0F) s).current_config
        = (lcd_write_4bits v s).current_config := by
      rw [lcd_write_4bits_config, lcd_write_4bits_config]
    have htr : (lcd_write_4bits (v &&& 0x0F) s).trace = (lcd_write_4bits v s).trace := by
      rw [lcd_write_4bits_trace, lcd_write_4bits_trace, nibble_events_low_nibble]
    cases hA : lcd_write_4bits (v &&& 0x0F) s with
    | mk c1 t1 =>
      cases hB : lcd_write_4bits v s with
      | mk c2 t2 =>
        rw [hA, hB] at hc htr
        simp only [] at hc htr
        rw [hc, htr]
  · rw [ht]
    simp

/-! ## The spin count of `lcd_delay_us` -/

theorem lcd_delay_us_spin_eq (count nops : Nat) :
    lcd_delay_us_spin count nops = nops + count := by
  induction count generalizing nops with
  | zero => rfl
  | succ n ih =>
    rw [lcd_delay_us_spin, ih]
    omega

/-- The loop terminates after exactly the computed number of iterations. -/
theorem lcd_delay_us_iterations_eq (f us : Nat) :
    lcd_delay_us_iterations f us = ((f / 1000000) * us % 2 ^ 32) / 5 := by
  rw [lcd_delay_us_iterations, lcd_delay_us_spin_eq, lcd_delay_us_count]
  omega

/-- As long as the product does not wrap, a longer delay never spins fewer times. -/
theorem lcd_delay_us_iterations_mono (f us1 us2 : Nat) (h : us1 ≤ us2)
    (hw : (f / 1000000) * us2 < 2 ^ 32) :
    lcd_delay_us_iterations f us1 ≤ lcd_delay_us_iterations f us2 := by
  have h1 : (f / 1000000) * us1 ≤ (f / 1000000) * us2 := Nat.mul_le_mul_left _ h
  rw [lcd_delay_us_iterations_eq, lcd_delay_us_iterations_eq,
    Nat.mod_eq_of_lt hw, Nat.mod_eq_of_lt (Nat.lt_of_le_of_lt h1 hw)]
  exact Nat.div_le_div_right h1

/-- C19 fails on the code: at a core clock of 48 MHz a request of 89478485 microseconds spins
858993456 times, but the longer request of 89478486 microseconds makes the 32-bit product
`48 * us` wrap and spins only 6 times; so the spin count is not monotone in the requested
delay over the 32-bit range. -/
theorem lcd_delay_us_wraps :
    lcd_delay_us_iterations 48000000 89478485 = 858993456 ∧
    lcd_delay_us_iterations 48000000 89478486 = 6 ∧
    ¬ (∀ f us1 us2 : Nat, f < 2 ^ 32 → us2 < 2 ^ 32 → us1 ≤ us2 →
        lcd_delay_us_iterations f us1 ≤ lcd_delay_us_iterations f us2) := by
  have h1 : lcd_delay_us_iterations 48000000 89478485 = 858993456 := by
    rw [lcd_delay_us_iterations_eq]
    decide
  have h2 : lcd_delay_us_iterations 48000000 89478486 = 6 := by
    rw [lcd_delay_us_iterations_eq]
    decide
  refine ⟨h1, h2, ?_⟩
  intro hmono
  have h := hmono 48000000 89478485 89478486 (by decide) (by decide) (by decide)
  rw [h1, h2] at h
  exact absurd h (by decide)

/-! ## The cursor command encoding -/

theorem ddram_command_add (row column : Nat) (hr : row < 2) (hc : column < 16) :
    0x80 ||| ((if row = 0 then 0x00 else 0x40) + column)
      = 0x80 + ((if row = 0 then 0x00 else 0x40) + column) ∧
    (0x80 ||| ((if row = 0 then 0x00 else 0x40) + column)) &&& 0x80 = 0x80 := by
  interval_cases row <;> interval_cases column <;> decide

/-- C20: for valid positions (`row` in {0,1}, `column` in 0..15) the address
`base(row) + column` is at most `0x4F`, so `0x80 | address = 0x80 + address` and bit 7 of the
command byte is set; the transfer log read back from the pins of `lcd_set_cursor_xy` is that
one command byte; and two valid positions with the same command byte, or with the same
emitted events, are the same position. -/
theorem cursor_command_injective (cfg : lcd_config) (r1 c1 r2 c2 : Nat)
    (hr1 : r1 < 2) (hc1 : c1 < 16) (hr2 : r2 < 2) (hc2 : c2 < 16) :
    (if r1 = 0 then 0x00 else 0x40) + c1 ≤ 0x4F ∧
    0x80 ||| ((if r1 = 0 then 0x00 else 0x40) + c1)
      = 0x80 + ((if r1 = 0 then 0x00 else 0x40) + c1) ∧
    (0x80 ||| ((if r1 = 0 then 0x00 else 0x40) + c1)) &&& 0x80 = 0x80 ∧
    transfer_log (lcd_set_cursor_xy r1 c1 ⟨cfg, []⟩).2.trace
      = [⟨0x80 ||| ((if r1 = 0 then 0x00 else 0x40) + c1), true⟩] ∧
    (0x80 ||| ((if r1 = 0 then 0x00 else 0x40) + c1)
        = 0x80 ||| ((if r2 = 0 then 0x00 else 0x40) + c2) → r1 = r2 ∧ c1 = c2) ∧
    ((lcd_set_cursor_xy r1 c1 ⟨cfg, []⟩).2.trace = (lcd_set_cursor_xy r2 c2 ⟨cfg, []⟩).2.trace →
      r1 = r2 ∧ c1 = c2) := by
  have hlog : ∀ r c : Nat, r < 2 → c < 16 →
      transfer_log (lcd_set_cursor_xy r c ⟨cfg, []⟩).2.trace
        = [⟨0x80 ||| ((if r = 0 then 0x00 else 0x40) + c), true⟩] := by
    intro r c hr hc
    have h := run_ops_log_init cfg [Op.set_cursor_xy r c]
    simp only [List.flatMap_cons, List.flatMap_nil, List.append_nil, Op.transfers] at h
    rw [if_pos ⟨hr, hc⟩] at h
    exact h
  have hinj : 0x80 ||| ((if r1 = 0 then 0x00 else 0x40) + c1)
      = 0x80 ||| ((if r2 = 0 then 0x00 else 0x40) + c2) → r1 = r2 ∧ c1 = c2 := by
    rw [(ddram_command_add r1 c1 hr1 hc1).1, (ddram_command_add r2 c2 hr2 hc2).1]
    intro h
    have hr1' : r1 = 0 ∨ r1 = 1 := by omega
    have hr2' : r2 = 0 ∨ r2 = 1 := by omega
    rcases hr1' with h1 | h1 <;> rcases hr2' with h2 | h2 <;> subst h1 <;> subst h2 <;>
      simp at h <;> omega
  refine ⟨?_, (ddram_command_add r1 c1 hr1 hc1).1, (ddram_command_add r1 c1 hr1 hc1).2,
    hlog r1 c1 hr1 hc1, hinj, ?_⟩
  · have hr1' : r1 = 0 ∨ r1 = 1 := by omega
    rcases hr1' with h1 | h1 <;> subst h1 <;> simp <;> omega
  · intro h
    have hl := congrArg transfer_log h
    rw [hlog r1 c1 hr1 hc1, hlog r2 c2 hr2 hc2] at hl
    apply hinj
    simpa using hl

/-- Witness for C20: the positions (1,5) and (0,0). -/
theorem cursor_command_injective_witness :
    (1 < 2 ∧ 5 < 16 ∧ 0 < 2 ∧ 0 < 16) ∧
    transfer_log (lcd_set_cursor_xy 1 5 ⟨basic_display.config, []⟩).2.trace = [⟨0xC5, true⟩] :=
  ⟨by decide,
   (cursor_command_injective basic_display.config 1 5 0 0
      (by decide) (by decide) (by decide) (by decide)).2.2.2.1⟩

/-! ## The CGRAM address byte of `lcd_create_char` -/

theorem cgram_command_bits (slot : Nat) (h : slot ≤ 7) :
    0x40 ||| (slot <<< 3) = 0x40 + 8 * slot ∧
    (0x40 ||| (slot <<< 3)) &&& 0x80 = 0 ∧
    (0x40 ||| (slot <<< 3)) &&& 0x40 = 0x40 ∧
    (0x40 ||| (slot <<< 3)) &&& 0x07 = 0 ∧
    (0x40 ||| (slot <<< 3)) &&& 0x3F = 8 * slot := by
  interval_cases slot <;> decide

/-- The transfer log read back from the pins of a successful `lcd_create_char`. -/
theorem lcd_create_char_transfer_log (cfg : lcd_config) (slot : Nat) (p : Nat → Nat)
    (h : slot ≤ 7) :
    transfer_log (lcd_create_char slot (some p) ⟨cfg, []⟩).2.trace =
      ⟨0x40 ||| (slot <<< 3), true⟩ ::
        ((List.range 8).map (fun i => (⟨p i % 256, false⟩ : Transfer)) ++ [⟨0x80, true⟩]) := by
  have hlog := run_ops_log_init cfg [Op.create_char slot (some p)]
  simp only [List.flatMap_cons, List.flatMap_nil, List.append_nil, Op.transfers] at hlog
  rw [if_pos h] at hlog
  exact hlog

theorem cgram_writes_data (a v : Nat) (log : List Transfer) :
    cgram_writes AddressMode.CGRAM a (⟨v, false⟩ :: log)
      = (a, v) :: cgram_writes AddressMode.CGRAM ((a + 1) % 64) log := by
  simp [cgram_writes]

/-- The CGRAM writes of a successful `lcd_create_char`: the pattern bytes at `8 * slot` and
the seven addresses after it. -/
theorem cgram_writes_create_char (cfg : lcd_config) (slot : Nat) (p : Nat → Nat) (a₀ : Nat)
    (h : slot ≤ 7) :
    cgram_writes AddressMode.DDRAM a₀
        (transfer_log (lcd_create_char slot (some p) ⟨cfg, []⟩).2.trace)
      = [(8 * slot, p 0 % 256), (8 * slot + 1, p 1 % 256), (8 * slot + 2, p 2 % 256),
         (8 * slot + 3, p 3 % 256), (8 * slot + 4, p 4 % 256), (8 * slot + 5, p 5 % 256),
         (8 * slot + 6, p 6 % 256), (8 * slot + 7, p 7 % 256)] := by
  obtain ⟨_, h7, h6, _, ha⟩ := cgram_command_bits slot h
  have hm := cgram_command_mode slot h AddressMode.DDRAM
  have h6' : (0x40 ||| (slot <<< 3)) &&& 0x40 ≠ 0 := by
    rw [h6]
    decide
  have hcmd : ∀ log : List Transfer,
      cgram_writes AddressMode.DDRAM a₀ (⟨0x40 ||| (slot <<< 3), true⟩ :: log)
        = cgram_writes AddressMode.CGRAM (8 * slot) log := by
    intro log
    rw [cgram_writes]
    simp only [if_true]
    rw [if_pos ⟨h7, h6'⟩, hm, ha]
  have hend : ∀ a : Nat, cgram_writes AddressMode.CGRAM a [⟨0x80, true⟩] = [] := by
    intro a
    have e : (0x80 : Nat) &&& 0x80 ≠ 0 := by decide
    rw [cgram_writes]
    simp only [if_true]
    rw [if_neg (fun hc => e hc.1)]
    rfl
  rw [lcd_create_char_transfer_log cfg slot p h, hcmd]
  simp only [List.range, List.range.loop, List.map_cons, List.map_nil, List.cons_append,
    List.nil_append, cgram_writes_data, hend]
  interval_cases slot <;> rfl

/-- C21: for every slot in 0..7 the set-CGRAM-address byte `0x40 | (slot << 3)` that
`lcd_create_char` sends as its first transfer equals `0x40 + 8 * slot`, has bit 7 clear and
bit 6 set (the controller takes it as a CGRAM, never a DDRAM, address command) and has its low
three bits zero; on the reference controller the eight pattern bytes are written to the CGRAM
addresses `8 * slot .. 8 * slot + 7`, all below 64, and the addresses written for two different
slots are disjoint. -/
theorem cgram_address_ranges (cfg : lcd_config) (slot slot' : Nat) (p p' : Nat → Nat)
    (a₀ : Nat) (h : slot ≤ 7) (h' : slot' ≤ 7) :
    0x40 ||| (slot <<< 3) = 0x40 + 8 * slot ∧
    (0x40 ||| (slot <<< 3)) &&& 0x80 = 0 ∧
    (0x40 ||| (slot <<< 3)) &&& 0x40 = 0x40 ∧
    (0x40 ||| (slot <<< 3)) &&& 0x07 = 0 ∧
    (transfer_log (lcd_create_char slot (some p) ⟨cfg, []⟩).2.trace).head?
      = some ⟨0x40 ||| (slot <<< 3), true⟩ ∧
    (∀ m : AddressMode, m.receive ⟨0x40 ||| (slot <<< 3), true⟩ = AddressMode.CGRAM) ∧
    cgram_writes AddressMode.DDRAM a₀
        (transfer_log (lcd_create_char slot (some p) ⟨cfg, []⟩).2.trace)
      = [(8 * slot, p 0 % 256), (8 * slot + 1, p 1 % 256), (8 * slot + 2, p 2 % 256),
         (8 * slot + 3, p 3 % 256), (8 * slot + 4, p 4 % 256), (8 * slot + 5, p 5 % 256),
         (8 * slot + 6, p 6 % 256), (8 * slot + 7, p 7 % 256)] ∧
    (∀ w ∈ cgram_writes AddressMode.DDRAM a₀
        (transfer_log (lcd_create_char slot (some p) ⟨cfg, []⟩).2.trace),
      8 * slot ≤ w.1 ∧ w.1 ≤ 8 * slot + 7 ∧ w.1 < 64) ∧
    (slot ≠ slot' →
      ∀ w ∈ cgram_writes AddressMode.DDRAM a₀
          (transfer_log (lcd_create_char slot (some p) ⟨cfg, []⟩).2.trace),
      ∀ w' ∈ cgram_writes AddressMode.DDRAM a₀
          (transfer_log (lcd_create_char slot' (some p') ⟨cfg, []⟩).2.trace),
        w.1 ≠ w'.1) := by
  obtain ⟨hb, h7, h6, h3, _⟩ := cgram_command_bits slot h
  have hw := cgram_writes_create_char cfg slot p a₀ h
  have hw' := cgram_writes_create_char cfg slot' p' a₀ h'
  have hrange : ∀ w ∈ cgram_writes AddressMode.DDRAM a₀
      (transfer_log (lcd_create_char slot (some p) ⟨cfg, []⟩).2.trace),
      8 * slot ≤ w.1 ∧ w.1 ≤ 8 * slot + 7 ∧ w.1 < 64 := by
    intro w hmem
    rw [hw] at hmem
    simp only [List.mem_cons, List.mem_singleton, List.not_mem_nil, or_false] at hmem
    rcases hmem with e | e | e | e | e | e | e | e <;> rw [e] <;> simp only [] <;> omega
  have hrange' : ∀ w' ∈ cgram_writes AddressMode.DDRAM a₀
      (transfer_log (lcd_create_char slot' (some p') ⟨cfg, []⟩).2.trace),
      8 * slot' ≤ w'.1 ∧ w'.1 ≤ 8 * slot' + 7 := by
    intro w hmem
    rw [hw'] at hmem
    simp only [List.mem_cons, List.mem_singleton, List.not_mem_nil, or_false] at hmem
    rcases hmem with e | e | e | e | e | e | e | e <;> rw [e] <;> simp only [] <;> omega
  refine ⟨hb, h7, h6, h3, ?_, fun m => cgram_command_mode slot h m, hw, hrange, ?_⟩
  · rw [lcd_create_char_transfer_log cfg slot p h]
    rfl
  · intro hne w hmem w' hmem'
    have h1 := hrange w hmem
    have h2 := hrange' w' hmem'
    omega

/-- Witness for C21: the bell glyph of `examples/custom_char.c` in slot 1, against slot 0. -/
theorem cgram_address_ranges_witness :
    (1 ≤ 7 ∧ 0 ≤ 7) ∧
    cgram_writes AddressMode.DDRAM 0
        (transfer_log (lcd_create_char 1 (some bell_pattern) ⟨basic_display.config, []⟩).2.trace)
      = [(8, 0x04), (9, 0x0E), (10, 0x0E), (11, 0x0E), (12, 0x1F), (13, 0x00), (14, 0x04),
         (15, 0x00)] :=
  ⟨by decide,
   (cgram_address_ranges basic_display.config 1 0 bell_pattern bell_pattern 0
      (by decide) (by decide)).2.2.2.2.2.2.1⟩

/-! ## The code's transfers are the specification's, pin by pin -/

theorem emitted_of_trace (s s' : State) (E : List Event) (h : s'.trace = s.trace ++ E) :
    emitted s s' = E := by
  simp [emitted, h]

theorem nibble_events_spec (cfg : lcd_config) (v : Nat) :
    nibble_events cfg v = spec_nibble_events cfg v :=
  nibble_events_testBit cfg v

theorem transfer_events_spec (cfg : lcd_config) (t : Transfer) :
    transfer_events cfg t = spec_transfer_events cfg t := by
  have hlow : t.value &&& 0x0F = t.value % 16 := Nat.and_pow_two_sub_one_eq_mod t.value 4
  have hhigh : t.value >>> 4 = t.value / 16 := by
    rw [Nat.shiftRight_eq_div_pow]
  rw [transfer_events_eq, nibble_events_spec, nibble_events_spec, hlow, hhigh]
  rfl

theorem log_events_spec (cfg : lcd_config) (log : List Transfer) :
    log_events cfg log = spec_log_events cfg log := by
  induction log with
  | nil =>
    rw [log_events_nil]
    rfl
  | cons t log ih =>
    rw [log_events_cons, ih, transfer_events_spec]
    exact (List.flatMap_cons t log (spec_transfer_events cfg)).symm

theorem spec_log_events_singleton (cfg : lcd_config) (t : Transfer) :
    spec_log_events cfg [t] = spec_transfer_events cfg t := by
  simp [spec_log_events]

/-- Read back from the pins, what an operation emitted is its list of transfers. -/
theorem op_emitted_log (op : Op) (s : State) :
    transfer_log (emitted s (op.run s).2) = op.transfers := by
  obtain ⟨E, hE, _, hL⟩ := op_run_events op s
  rw [emitted_of_trace _ _ E hE, hL]

/-! ## Cursor positioning: the transfer -/

/-- C2: for `row` in {0,1} and `column` in 0..15, `lcd_set_cursor_xy` succeeds, leaves the
stored configuration alone and emits exactly one byte-level transfer, twenty events: the
register-select line driven low (a command), the high and the low nibble of
`0x80 | (base(row) + column)` on the data lines with an enable pulse each, and the command
delay; `base(0) = 0x00`, `base(1) = 0x40`. Read back from the pin levels the call sent that
one command byte, whose low seven bits are the DDRAM address `base(row) + column`.
In particular `(1,5)` sends `0xC5` (address `0x45`) and `(0,0)` sends `0x80` (address `0x00`). -/
theorem lcd_set_cursor_xy_transfer (row column : Nat) (s : State)
    (hr : row < 2) (hc : column < 16) :
    (lcd_set_cursor_xy row column s).1 = LCD_SUCCESS ∧
    (lcd_set_cursor_xy row column s).2.current_config = s.current_config ∧
    (lcd_set_cursor_xy row column s).2.trace = s.trace ++ log_events s.current_config
      [⟨0x80 ||| ((if row = 0 then 0x00 else 0x40) + column), true⟩] ∧
    (0x80 ||| ((if row = 0 then 0x00 else 0x40) + column)) &&& 0x7F
      = (if row = 0 then 0x00 else 0x40) + column ∧
    ((lcd_set_cursor_xy 1 5 s).2.trace
      = s.trace ++ log_events s.current_config [⟨0xC5, true⟩] ∧ 0xC5 &&& 0x7F = 0x45) ∧
    ((lcd_set_cursor_xy 0 0 s).2.trace
      = s.trace ++ log_events s.current_config [⟨0x80, true⟩] ∧ 0x80 &&& 0x7F = 0x00) ∧
    (lcd_set_cursor_xy row column s).2.trace = s.trace ++
      (Event.HAL_GPIO_WritePin s.current_config.pins.rs.port s.current_config.pins.rs.pin
          GPIO_PinState.GPIO_PIN_RESET ::
        (spec_nibble_events s.current_config
            ((0x80 ||| ((if row = 0 then 0x00 else 0x40) + column)) / 16) ++
         spec_nibble_events s.current_config
            ((0x80 ||| ((if row = 0 then 0x00 else 0x40) + column)) % 16) ++
         [Event.lcd_delay_us s.current_config.timing.cmd_delay_us])) ∧
    (emitted s (lcd_set_cursor_xy row column s).2).length = 20 ∧
    transfer_log (emitted s (lcd_set_cursor_xy row column s).2)
      = [⟨0x80 ||| ((if row = 0 then 0x00 else 0x40) + column), true⟩] ∧
    transfer_log (emitted s (lcd_set_cursor_xy 1 5 s).2) = [⟨0xC5, true⟩] ∧
    transfer_log (emitted s (lcd_set_cursor_xy 0 0 s).2) = [⟨0x80, true⟩] := by
  have htr : ∀ r c : Nat, r < 2 → c < 16 →
      (lcd_set_cursor_xy r c s).2.trace = s.trace ++ log_events s.current_config
        [⟨0x80 ||| ((if r = 0 then 0x00 else 0x40) + c), true⟩] := by
    intro r c hr hc
    rw [lcd_set_cursor_xy_valid r c s hr hc, log_events_singleton]
    exact lcd_write_byte_trace _ _ _
  have hlog : ∀ r c : Nat, r < 2 → c < 16 →
      transfer_log (emitted s (lcd_set_cursor_xy r c s).2)
        = [⟨0x80 ||| ((if r = 0 then 0x00 else 0x40) + c), true⟩] := by
    intro r c hr hc
    have h := op_emitted_log (Op.set_cursor_xy r c) s
    simp only [Op.run, Op.transfers] at h
    rw [if_pos ⟨hr, hc⟩] at h
    exact h
  have hpins : (lcd_set_cursor_xy row column s).2.trace = s.trace ++
      spec_transfer_events s.current_config
        ⟨0x80 ||| ((if row = 0 then 0x00 else 0x40) + column), true⟩ := by
    rw [htr row column hr hc, log_events_spec, spec_log_events_singleton]
  refine ⟨?_, ?_, htr row column hr hc, (ddram_command_value row column hr hc).2,
    ⟨htr 1 5 (by decide) (by decide), by decide⟩,
    ⟨htr 0 0 (by decide) (by decide), by decide⟩, hpins, ?_,
    hlog row column hr hc, hlog 1 5 (by decide) (by decide), hlog 0 0 (by decide) (by decide)⟩
  · rw [lcd_set_cursor_xy_valid row column s hr hc]
  · rw [lcd_set_cursor_xy_valid row column s hr hc]
    exact lcd_write_byte_config _ _ _
  · rw [emitted_of_trace _ _ _ hpins]
    simp [spec_transfer_events, spec_nibble_events]

/-- Witness for C2 at row 1, column 5: the twenty events under the configuration of
`examples/basic_display.c`, which read back as the command `0xC5`. -/
theorem lcd_set_cursor_xy_transfer_witness :
    (1 < 2 ∧ 5 < 16) ∧
    (lcd_set_cursor_xy 1 5 ⟨basic_display.config, []⟩).2.trace
      = spec_transfer_events basic_display.config ⟨0xC5, true⟩ ∧
    transfer_log (emitted ⟨basic_display.config, []⟩
      (lcd_set_cursor_xy 1 5 ⟨basic_display.config, []⟩).2) = [⟨0xC5, true⟩] := by
  obtain ⟨_, _, _, _, _, _, h7, _, h9, _, _⟩ :=
    lcd_set_cursor_xy_transfer 1 5 ⟨basic_display.config, []⟩ (by decide) (by decide)
  exact ⟨by decide, by simpa using h7, h9⟩

/-! ## Custom characters: the transfers -/

/-- C3: for `slot` in 0..7 and a present pattern `p`, `lcd_create_char(slot, p)` returns
`LCD_SUCCESS`, leaves the stored configuration alone, and emits exactly ten byte-level
transfers in this order, each written out pin by pin: the command `0x40 | (slot << 3)`
(register select low), the eight bytes `p[0] .. p[7]` as character data (register select
high), and the command `0x80`. Read back from the pin levels the call sent exactly these ten,
the pattern bytes with their values unmodified. -/
theorem lcd_create_char_log (slot : Nat) (p : Nat → Nat) (s : State) (h : slot ≤ 7) :
    (lcd_create_char slot (some p) s).1 = LCD_SUCCESS ∧
    (lcd_create_char slot (some p) s).2.current_config = s.current_config ∧
    (lcd_create_char slot (some p) s).2.trace = s.trace ++ log_events s.current_config
      [⟨0x40 ||| (slot <<< 3), true⟩,
       ⟨p 0, false⟩, ⟨p 1, false⟩, ⟨p 2, false⟩, ⟨p 3, false⟩,
       ⟨p 4, false⟩, ⟨p 5, false⟩, ⟨p 6, false⟩, ⟨p 7, false⟩,
       ⟨0x80, true⟩] ∧
    (lcd_create_char slot (some p) s).2.trace.length = s.trace.length + 10 * 20 ∧
    (lcd_create_char slot (some p) s).2.trace = s.trace ++
      (spec_transfer_events s.current_config ⟨0x40 ||| (slot <<< 3), true⟩ ++
       spec_transfer_events s.current_config ⟨p 0, false⟩ ++
       spec_transfer_events s.current_config ⟨p 1, false⟩ ++
       spec_transfer_events s.current_config ⟨p 2, false⟩ ++
       spec_transfer_events s.current_config ⟨p 3, false⟩ ++
       spec_transfer_events s.current_config ⟨p 4, false⟩ ++
       spec_transfer_events s.current_config ⟨p 5, false⟩ ++
       spec_transfer_events s.current_config ⟨p 6, false⟩ ++
       spec_transfer_events s.current_config ⟨p 7, false⟩ ++
       spec_transfer_events s.current_config ⟨0x80, true⟩) ∧
    transfer_log (emitted s (lcd_create_char slot (some p) s).2) =
      [⟨0x40 ||| (slot <<< 3), true⟩,
       ⟨p 0 % 256, false⟩, ⟨p 1 % 256, false⟩, ⟨p 2 % 256, false⟩, ⟨p 3 % 256, false⟩,
       ⟨p 4 % 256, false⟩, ⟨p 5 % 256, false⟩, ⟨p 6 % 256, false⟩, ⟨p 7 % 256, false⟩,
       ⟨0x80, true⟩] ∧
    ((∀ i, i < 8 → p i < 256) →
      transfer_log (emitted s (lcd_create_char slot (some p) s).2) =
        [⟨0x40 ||| (slot <<< 3), true⟩,
         ⟨p 0, false⟩, ⟨p 1, false⟩, ⟨p 2, false⟩, ⟨p 3, false⟩,
         ⟨p 4, false⟩, ⟨p 5, false⟩, ⟨p 6, false⟩, ⟨p 7, false⟩,
         ⟨0x80, true⟩]) := by
  obtain ⟨hst, hcfg, ht'⟩ := lcd_create_char_valid slot p s h
  have ht : (lcd_create_char slot (some p) s).2.trace = s.trace ++ log_events s.current_config
      [⟨0x40 ||| (slot <<< 3), true⟩,
       ⟨p 0, false⟩, ⟨p 1, false⟩, ⟨p 2, false⟩, ⟨p 3, false⟩,
       ⟨p 4, false⟩, ⟨p 5, false⟩, ⟨p 6, false⟩, ⟨p 7, false⟩,
       ⟨0x80, true⟩] := by
    rw [ht']
    simp [List.range, List.range.loop]
  have hlog : transfer_log (emitted s (lcd_create_char slot (some p) s).2) =
      [⟨0x40 ||| (slot <<< 3), true⟩,
       ⟨p 0 % 256, false⟩, ⟨p 1 % 256, false⟩, ⟨p 2 % 256, false⟩, ⟨p 3 % 256, false⟩,
       ⟨p 4 % 256, false⟩, ⟨p 5 % 256, false⟩, ⟨p 6 % 256, false⟩, ⟨p 7 % 256, false⟩,
       ⟨0x80, true⟩] := by
    have hl := op_emitted_log (Op.create_char slot (some p)) s
    simp only [Op.run, Op.transfers] at hl
    rw [if_pos h] at hl
    rw [hl]
    simp [List.range, List.range.loop]
  refine ⟨hst, hcfg, ht, ?_, ?_, hlog, ?_⟩
  · rw [ht]
    simp [log_events_cons, log_events_nil, transfer_events_length]
  · rw [ht, log_events_spec]
    simp [spec_log_events]
  · intro hp
    rw [hlog, Nat.mod_eq_of_lt (hp 0 (by decide)), Nat.mod_eq_of_lt (hp 1 (by decide)),
      Nat.mod_eq_of_lt (hp 2 (by decide)), Nat.mod_eq_of_lt (hp 3 (by decide)),
      Nat.mod_eq_of_lt (hp 4 (by decide)), Nat.mod_eq_of_lt (hp 5 (by decide)),
      Nat.mod_eq_of_lt (hp 6 (by decide)), Nat.mod_eq_of_lt (hp 7 (by decide))]

/-- Witness for C3: the bell glyph of `examples/custom_char.c` in slot 0, read back from the
pins. -/
theorem lcd_create_char_log_witness :
    (0 ≤ 7) ∧
    transfer_log (emitted ⟨basic_display.config, []⟩
      (lcd_create_char 0 (some bell_pattern) ⟨basic_display.config, []⟩).2)
      = [⟨0x40, true⟩, ⟨0x04, false⟩, ⟨0x0E, false⟩, ⟨0x0E, false⟩, ⟨0x0E, false⟩,
         ⟨0x1F, false⟩, ⟨0x00, false⟩, ⟨0x04, false⟩, ⟨0x00, false⟩, ⟨0x80, true⟩] := by
  obtain ⟨_, _, _, _, _, h6, _⟩ :=
    lcd_create_char_log 0 bell_pattern ⟨basic_display.config, []⟩ (by decide)
  exact ⟨by decide, h6⟩

/-! ## Text output: the transfers -/

/-- C5: for a present string whose bytes before the end marker are `c_0 .. c_{N-1}`, none
zero, `lcd_write_string` returns `LCD_SUCCESS`, leaves the stored configuration alone and
emits exactly `N` character-data transfers, each written out pin by pin with register select
driven high, the i-th carrying `c_i`; read back from the pin levels the call sent exactly
these `N` data bytes; the final state is that of calling `lcd_write_char(c_0)`, ...,
`lcd_write_char(c_{N-1})` one after the other; whatever is stored after the end marker is
not read; and for the empty string nothing is emitted. -/
theorem lcd_write_string_log (str : List Nat) (s : State) (h : ∀ c ∈ str, c ≠ 0 ∧ c < 256) :
    (lcd_write_string (some str) s).1 = LCD_SUCCESS ∧
    (lcd_write_string (some str) s).2.current_config = s.current_config ∧
    (lcd_write_string (some str) s).2.trace
      = s.trace ++ log_events s.current_config (str.map fun c => ⟨c, false⟩) ∧
    (str.map fun c => (⟨c, false⟩ : Transfer)).length = str.length ∧
    (lcd_write_string (some str) s).2 = str.foldl (fun s c => (lcd_write_char c s).2) s ∧
    (∀ rest, lcd_write_string (some (str ++ 0 :: rest)) s = lcd_write_string (some str) s) ∧
    lcd_write_string (some []) s = (LCD_SUCCESS, s) ∧
    (lcd_write_string (some str) s).2.trace = s.trace ++
      str.flatMap (fun c =>
        Event.HAL_GPIO_WritePin s.current_config.pins.rs.port s.current_config.pins.rs.pin
            GPIO_PinState.GPIO_PIN_SET ::
          (spec_nibble_events s.current_config (c / 16) ++
           spec_nibble_events s.current_config (c % 16) ++
           [Event.lcd_delay_us s.current_config.timing.cmd_delay_us])) ∧
    (emitted s (lcd_write_string (some str) s).2).length = 20 * str.length ∧
    transfer_log (emitted s (lcd_write_string (some str) s).2)
      = str.map (fun c => ⟨c, false⟩) ∧
    (∀ c, lcd_write_char c s = (LCD_SUCCESS, lcd_write_byte (c % 256) false s) ∧
      transfer_log (emitted s (lcd_write_char c s).2) = [⟨c % 256, false⟩]) := by
  have h0 : ∀ c ∈ str, c ≠ 0 := fun c hc => (h c hc).1
  have ht : (lcd_write_string (some str) s).2.trace
      = s.trace ++ log_events s.current_config (str.map fun c => ⟨c, false⟩) :=
    lcd_write_string_loop_trace str s h
  have hpins : (lcd_write_string (some str) s).2.trace = s.trace ++
      str.flatMap (fun c =>
        Event.HAL_GPIO_WritePin s.current_config.pins.rs.port s.current_config.pins.rs.pin
            GPIO_PinState.GPIO_PIN_SET ::
          (spec_nibble_events s.current_config (c / 16) ++
           spec_nibble_events s.current_config (c % 16) ++
           [Event.lcd_delay_us s.current_config.timing.cmd_delay_us])) := by
    rw [ht, log_events_spec, spec_log_events, List.flatMap_map]
    rfl
  refine ⟨rfl, lcd_write_string_loop_config str s, ht, by simp,
    lcd_write_string_loop_foldl str s h0, ?_, rfl, hpins, ?_, ?_, ?_⟩
  · intro rest
    simp [lcd_write_string, lcd_write_string_loop_stop str rest s h0]
  · rw [emitted_of_trace _ _ _ hpins]
    clear hpins ht h h0
    induction str with
    | nil => rfl
    | cons c str ih =>
      rw [List.flatMap_cons, List.length_append, ih]
      simp [spec_nibble_events]
      omega
  · rw [emitted_of_trace _ _ _ ht, (framed_log_events _ _).2, List.map_map]
    apply List.map_congr_left
    intro c hc
    exact received_of_lt c false (h c hc).2
  · intro c
    refine ⟨rfl, ?_⟩
    have hl := op_emitted_log (Op.write_char c) s
    simpa [Op.run, Op.transfers] using hl

/-- Witness for C5: the string "HI", read back from the pins. -/
theorem lcd_write_string_log_witness :
    (∀ c ∈ [0x48, 0x49], c ≠ 0 ∧ c < 256) ∧
    transfer_log (emitted ⟨basic_display.config, []⟩
      (lcd_write_string (some [0x48, 0x49]) ⟨basic_display.config, []⟩).2)
      = [⟨0x48, false⟩, ⟨0x49, false⟩] := by
  obtain ⟨_, _, _, _, _, _, _, _, _, h10, _⟩ :=
    lcd_write_string_log [0x48, 0x49] ⟨basic_display.config, []⟩ (by decide)
  exact ⟨by decide, h10⟩

/-! ## Initialisation and display control: the transfers -/

/-- The pin-level trace of a successful `lcd_init`, no part of it phrased through the
driver's own write functions. -/
theorem lcd_init_trace_spec (cfg : lcd_config) (s : State) :
    (lcd_init (some cfg) s).2.trace = s.trace ++
      (init_setup_events cfg ++
        (spec_nibble_events cfg 0x3 ++ [Event.lcd_delay_us 4500] ++
         spec_nibble_events cfg 0x3 ++ [Event.lcd_delay_us 4500] ++
         spec_nibble_events cfg 0x3 ++ [Event.lcd_delay_us 150] ++
         spec_nibble_events cfg 0x2) ++
        (spec_transfer_events cfg ⟨spec_function_set_byte cfg.display, true⟩ ++
         spec_transfer_events cfg ⟨spec_display_ctrl_byte cfg.display, true⟩ ++
         spec_transfer_events cfg ⟨0x01, true⟩) ++
        [Event.lcd_delay_us cfg.timing.clear_delay_us]) := by
  rw [lcd_init_trace, log_events_spec, nibble_events_spec, nibble_events_spec]
  simp [spec_log_events]

/-- C7: for every present configuration `cfg`, `lcd_init` returns `LCD_SUCCESS`, stores
`cfg` as the driver configuration, and after the four re-synchronisation nibbles emits
exactly three byte-level transfers, each written out pin by pin with register select driven
low (commands): function set `0x20 | (0x08 if two_lines) | (0x04 if big_font)` (flag `0x10`
always clear), display control
`0x08 | (0x04 if display_on) | (0x02 if cursor_on) | (0x01 if cursor_blink)`, and clear `0x01`,
followed only by the clear delay; read back from the pin levels the call sent exactly these
three commands; a following `lcd_clear` returns `LCD_SUCCESS` too. -/
theorem lcd_init_commands (cfg : lcd_config) (s : State) :
    (lcd_init (some cfg) s).1 = LCD_SUCCESS ∧
    (lcd_init (some cfg) s).2.current_config = cfg ∧
    (lcd_init (some cfg) s).2.trace = s.trace ++ init_setup_events cfg ++
      (nibble_events cfg 0x3 ++ [Event.lcd_delay_us 4500] ++
       nibble_events cfg 0x3 ++ [Event.lcd_delay_us 4500] ++
       nibble_events cfg 0x3 ++ [Event.lcd_delay_us 150] ++
       nibble_events cfg 0x2) ++
      log_events cfg
        [⟨0x20 ||| (if cfg.display.two_lines then 0x08 else 0x00)
            ||| (if cfg.display.big_font then 0x04 else 0x00), true⟩,
         ⟨0x08 ||| (if cfg.display.display_on then 0x04 else 0x00)
            ||| (if cfg.display.cursor_on then 0x02 else 0x00)
            ||| (if cfg.display.cursor_blink then 0x01 else 0x00), true⟩,
         ⟨0x01, true⟩] ++
      [Event.lcd_delay_us cfg.timing.clear_delay_us] ∧
    (0x20 ||| (if cfg.display.two_lines then 0x08 else 0x00)
        ||| (if cfg.display.big_font then 0x04 else 0x00)) &&& 0x10 = 0 ∧
    (lcd_clear (lcd_init (some cfg) s).2).1 = LCD_SUCCESS ∧
    (lcd_init (some cfg) s).2.trace = s.trace ++
      (init_setup_events cfg ++
        (spec_nibble_events cfg 0x3 ++ [Event.lcd_delay_us 4500] ++
         spec_nibble_events cfg 0x3 ++ [Event.lcd_delay_us 4500] ++
         spec_nibble_events cfg 0x3 ++ [Event.lcd_delay_us 150] ++
         spec_nibble_events cfg 0x2) ++
        (spec_transfer_events cfg
            ⟨0x20 ||| (if cfg.display.two_lines then 0x08 else 0x00)
              ||| (if cfg.display.big_font then 0x04 else 0x00), true⟩ ++
         spec_transfer_events cfg
            ⟨0x08 ||| (if cfg.display.display_on then 0x04 else 0x00)
              ||| (if cfg.display.cursor_on then 0x02 else 0x00)
              ||| (if cfg.display.cursor_blink then 0x01 else 0x00), true⟩ ++
         spec_transfer_events cfg ⟨0x01, true⟩) ++
        [Event.lcd_delay_us cfg.timing.clear_delay_us]) ∧
    (emitted s (lcd_init (some cfg) s).2).length = 7 + (4 * 9 + 3) + 3 * 20 + 1 ∧
    transfer_log (emitted s (lcd_init (some cfg) s).2) =
      [⟨0x20 ||| (if cfg.display.two_lines then 0x08 else 0x00)
          ||| (if cfg.display.big_font then 0x04 else 0x00), true⟩,
       ⟨0x08 ||| (if cfg.display.display_on then 0x04 else 0x00)
          ||| (if cfg.display.cursor_on then 0x02 else 0x00)
          ||| (if cfg.display.cursor_blink then 0x01 else 0x00), true⟩,
       ⟨0x01, true⟩] := by
  have hlog := op_emitted_log (Op.init (some cfg)) s
  refine ⟨rfl, lcd_init_config cfg s, lcd_init_trace cfg s, ?_, rfl, lcd_init_trace_spec cfg s,
    ?_, hlog⟩
  · cases cfg.display.two_lines <;> cases cfg.display.big_font <;> decide
  · rw [emitted_of_trace _ _ _ (lcd_init_trace_spec cfg s)]
    simp [init_setup_events, spec_transfer_events, spec_nibble_events]

/-! ## `lcd_set_display`: the transfer -/

/-- C10: for every present flag record `d`, `lcd_set_display(d)` emits exactly one byte-level
transfer, written out pin by pin with register select driven low: a command whose value is
the specification's display-control byte
`0x08 | (0x04 if display_on) | (0x02 if cursor_on) | (0x01 if cursor_blink)`; read back from
the pin levels the call sent exactly that command; changing `two_lines` or `big_font` in `d`
changes neither the byte nor the emitted events; and the second of the three commands read
back from the pins of `lcd_init`, for any configuration with display section `d`, is that
same byte. -/
theorem lcd_set_display_command (d : lcd_display_config) (s : State)
    (cfg : lcd_config) (s' : State) :
    (lcd_set_display (some d) s).2.trace
      = s.trace ++ log_events s.current_config [⟨spec_display_ctrl_byte d, true⟩] ∧
    (∀ a b : Bool,
      spec_display_ctrl_byte { d with two_lines := a, big_font := b } = spec_display_ctrl_byte d ∧
      (lcd_set_display (some { d with two_lines := a, big_font := b }) s).2.trace
        = (lcd_set_display (some d) s).2.trace) ∧
    (lcd_init (some { cfg with display := d }) s').2.trace
      = s'.trace ++ init_setup_events { cfg with display := d } ++
        (nibble_events { cfg with display := d } 0x3 ++ [Event.lcd_delay_us 4500] ++
         nibble_events { cfg with display := d } 0x3 ++ [Event.lcd_delay_us 4500] ++
         nibble_events { cfg with display := d } 0x3 ++ [Event.lcd_delay_us 150] ++
         nibble_events { cfg with display := d } 0x2) ++
        log_events { cfg with display := d }
          [⟨spec_function_set_byte d, true⟩, ⟨spec_display_ctrl_byte d, true⟩, ⟨0x01, true⟩] ++
        [Event.lcd_delay_us cfg.timing.clear_delay_us] ∧
    (lcd_set_display (some d) s).2.trace = s.trace ++
      (Event.HAL_GPIO_WritePin s.current_config.pins.rs.port s.current_config.pins.rs.pin
          GPIO_PinState.GPIO_PIN_RESET ::
        (spec_nibble_events s.current_config
            ((0x08 ||| (if d.display_on then 0x04 else 0x00)
              ||| (if d.cursor_on then 0x02 else 0x00)
              ||| (if d.cursor_blink then 0x01 else 0x00)) / 16) ++
         spec_nibble_events s.current_config
            ((0x08 ||| (if d.display_on then 0x04 else 0x00)
              ||| (if d.cursor_on then 0x02 else 0x00)
              ||| (if d.cursor_blink then 0x01 else 0x00)) % 16) ++
         [Event.lcd_delay_us s.current_config.timing.cmd_delay_us])) ∧
    (emitted s (lcd_set_display (some d) s).2).length = 20 ∧
    transfer_log (emitted s (lcd_set_display (some d) s).2) =
      [⟨0x08 ||| (if d.display_on then 0x04 else 0x00)
          ||| (if d.cursor_on then 0x02 else 0x00)
          ||| (if d.cursor_blink then 0x01 else 0x00), true⟩] ∧
    transfer_log (emitted s' (lcd_init (some { cfg with display := d }) s').2) =
      [⟨0x20 ||| (if d.two_lines then 0x08 else 0x00) ||| (if d.big_font then 0x04 else 0x00),
          true⟩,
       ⟨0x08 ||| (if d.display_on then 0x04 else 0x00)
          ||| (if d.cursor_on then 0x02 else 0x00)
          ||| (if d.cursor_blink then 0x01 else 0x00), true⟩,
       ⟨0x01, true⟩] := by
  have ht : ∀ d' : lcd_display_config, (lcd_set_display (some d') s).2.trace
      = s.trace ++ log_events s.current_config [⟨spec_display_ctrl_byte d', true⟩] := by
    intro d'
    rw [lcd_set_display_trace, log_events_singleton]
  have hpins : (lcd_set_display (some d) s).2.trace = s.trace ++
      spec_transfer_events s.current_config ⟨spec_display_ctrl_byte d, true⟩ := by
    rw [lcd_set_display_trace, transfer_events_spec]
  have hlog := op_emitted_log (Op.set_display (some d)) s
  have hinit := op_emitted_log (Op.init (some { cfg with display := d })) s'
  refine ⟨ht d, ?_, lcd_init_trace { cfg with display := d } s', hpins, ?_, hlog, hinit⟩
  · intro a b
    have hb : spec_display_ctrl_byte { d with two_lines := a, big_font := b }
        = spec_display_ctrl_byte d := rfl
    exact ⟨hb, by rw [ht, ht, hb]⟩
  · rw [emitted_of_trace _ _ _ hpins]
    simp [spec_transfer_events, spec_nibble_events]

end HD44780
